import Mathlib

/-!
# Verification of the socnganalis analytics pipeline

A shallow embedding, in Lean 4, of the text-analytics engines of the
`socnganalis` repository (FastAPI analytics service), together with proofs
and refutations of the specification claims about them.

Embedded components (each definition names the Python source it translates):

* `SentimentProcessor.preprocess_text` and `EmotionProcessor.preprocess_text`
  (text normalization pipelines);
* `EmotionProcessor.predict_emotion` (lexicon scoring and tie-break);
* `SentimentProcessor._fallback_sentiment` (trigger-word counting);
* the sentiment / emotion report distributions (`value_counts`-based);
* `RecommendationProcessor._calculate_performance_score`;
* `RecommendationProcessor.generate_recommendations` with its five rule
  engines and the priority sort;
* `DataProcessor.get_peak_activity_hours` (guard, feature building and the
  peak-range reporting stage).

Modelling conventions:

* Python `str` is modelled by `String` / `List Char`.  The Python regex
  classes `\w` and `\s` are modelled over the ASCII fragment
  (`isWordChar`, `isSpaceChar`); Python's (rarely exercised) Unicode word
  characters and the `\f`/`\v` whitespace forms are outside the model.
* Python numbers (ints and floats) are modelled by exact `ℚ`/`ℤ`/`ℕ`
  arithmetic; `round` is round-half-to-even on exact rationals, `int()` is
  truncation toward zero.  Binary floating-point representation error is
  outside the model.
* Recursive text scanners use an explicit fuel argument (always instantiated
  with the length of the scanned list, which the scanners never exceed) so
  that every definition is structurally recursive and kernel-computable.
* Fallible/absent inputs (`None`, missing dict keys) are modelled with
  `Option`; Python dicts read through `.get` are modelled as association
  lists looked up by key.
-/

/-- Python regex `\w` (word character), ASCII fragment: letters, digits and
underscore. -/
def isWordChar (c : Char) : Bool :=
  c.isAlpha || c.isDigit || c = '_'

/-- Python regex `\s` (whitespace), modelled by space, tab, carriage return
and newline. -/
def isSpaceChar (c : Char) : Bool :=
  c.isWhitespace

/-- A character that survives the `[^\w\s]` removal step: word char or
whitespace. -/
def isWordOrSpace (c : Char) : Bool :=
  isWordChar c || isSpaceChar c

/-- Python substring test `needle in haystack` on character lists. -/
def strContains (needle : List Char) : List Char → Bool
  | [] => needle.isPrefixOf []
  | c :: rest => needle.isPrefixOf (c :: rest) || strContains needle rest

/-- One pass of Python `str.replace(old, new)`: replace every
non-overlapping occurrence of `old`, scanning left to right.  `fuel` bounds
the recursion; it is always called with `fuel = length of the scanned list`,
which the scan never exceeds. -/
def replaceFuel (old new : List Char) : Nat → List Char → List Char
  | _, [] => []
  | 0, s => s
  | fuel + 1, c :: rest =>
    if old.isPrefixOf (c :: rest) then
      new ++ replaceFuel old new fuel (List.drop (old.length - 1) rest)
    else
      c :: replaceFuel old new fuel rest

/-- Python `s.replace(old, new)` (for the nonempty `old` used throughout the
source; Python's empty-pattern behaviour is never exercised). -/
def pyReplace (old new s : List Char) : List Char :=
  if old.isEmpty then s else replaceFuel old new s.length s

/-- Character class of the URL-removal regexes of
`SentimentProcessor.preprocess_text` (sentiment_processor.py lines 121-122):
`[a-zA-Z]|[0-9]|[$-_@.&+]|[!*\\(\\),]|(?:%[0-9a-fA-F][0-9a-fA-F])`.
The `%hh` alternative adds no characters beyond the single-char classes
(`%` is inside the `$-_` range and hex digits are alphanumeric), so under a
greedy `+` the matchable text is exactly a run of these characters. -/
def urlChar (c : Char) : Bool :=
  c.isAlpha || c.isDigit || (0x24 ≤ c.toNat && c.toNat ≤ 0x5F) ||
    c = '!' || c = '*' || c = '\\' || c = '(' || c = ')' || c = ','

/-- `re.sub(r'http[s]?://(?:<urlChar>)+', '', text)`: the pattern matches at
a position iff the text there starts with `https://` or `http://` followed
by at least one `urlChar`; the greedy `+` consumes the maximal `urlChar`
run, and the match is deleted. -/
def stripHttpFuel (cls : Char → Bool) : Nat → List Char → List Char
  | _, [] => []
  | 0, s => s
  | fuel + 1, c :: rest =>
    let s := c :: rest
    if "https://".data.isPrefixOf s && cls ((s.drop 8).headD ' ') then
      stripHttpFuel cls fuel ((s.drop 8).dropWhile cls)
    else if "http://".data.isPrefixOf s && cls ((s.drop 7).headD ' ') then
      stripHttpFuel cls fuel ((s.drop 7).dropWhile cls)
    else
      c :: stripHttpFuel cls fuel rest

/-- `re.sub(r'www\.(?:<urlChar>)+', '', text)`: `www.` followed by at least
one `urlChar`; maximal run deleted. -/
def stripWwwFuel (cls : Char → Bool) : Nat → List Char → List Char
  | _, [] => []
  | 0, s => s
  | fuel + 1, c :: rest =>
    let s := c :: rest
    if "www.".data.isPrefixOf s && cls ((s.drop 4).headD ' ') then
      stripWwwFuel cls fuel ((s.drop 4).dropWhile cls)
    else
      c :: stripWwwFuel cls fuel rest

/-- `re.sub(r'@\w+', '', text)`: an `@` followed by at least one word
character; the `@` and the maximal word-character run are deleted. -/
def stripMentionsFuel : Nat → List Char → List Char
  | _, [] => []
  | 0, s => s
  | fuel + 1, c :: rest =>
    if c = '@' && isWordChar (rest.headD ' ') then
      stripMentionsFuel fuel (rest.dropWhile isWordChar)
    else
      c :: stripMentionsFuel fuel rest

/-- `re.sub('([a-z])([A-Z])', r'\1 \2', hashtag)`: insert a space at every
lowercase-to-uppercase boundary (ASCII, as in the Python regex). -/
def camelSplit : List Char → List Char
  | [] => []
  | [a] => [a]
  | a :: b :: rest =>
    if a.isLower && b.isUpper then a :: ' ' :: camelSplit (b :: rest)
    else a :: camelSplit (b :: rest)

/-- `re.sub(r'#(\w+)', process_hashtag, text)` where `process_hashtag`
camel-splits the captured group and lowercases it
(both preprocess_text functions, sentiment_processor.py lines 128-133 and
emotion_processor.py lines 415-420). -/
def procHashtagsFuel : Nat → List Char → List Char
  | _, [] => []
  | 0, s => s
  | fuel + 1, c :: rest =>
    if c = '#' && isWordChar (rest.headD ' ') then
      (camelSplit (rest.takeWhile isWordChar)).map Char.toLower ++
        procHashtagsFuel fuel (rest.dropWhile isWordChar)
    else
      c :: procHashtagsFuel fuel rest

/-- The `emoji_pattern` code-point ranges shared by both preprocess
functions (sentiment_processor.py lines 136-143, emotion_processor.py
lines 423-430). -/
def inEmojiRange (c : Char) : Bool :=
  let n := c.toNat
  (0x1F600 ≤ n && n ≤ 0x1F64F) || (0x1F300 ≤ n && n ≤ 0x1F5FF) ||
  (0x1F680 ≤ n && n ≤ 0x1F6FF) || (0x1F1E0 ≤ n && n ≤ 0x1F1FF) ||
  (0x2702 ≤ n && n ≤ 0x27B0) || (0x24C2 ≤ n && n ≤ 0x1F251)

/-- `emoji_pattern.sub(r' ', text)`: each maximal run of range characters
(`[...]+`) is replaced by a single space. -/
def stripEmojiRunsFuel : Nat → List Char → List Char
  | _, [] => []
  | 0, s => s
  | fuel + 1, c :: rest =>
    if inEmojiRange c then
      ' ' :: stripEmojiRunsFuel fuel (rest.dropWhile inEmojiRange)
    else
      c :: stripEmojiRunsFuel fuel rest

/-- `re.sub(r'(.)\1{3,}', r'\1\1', text)`: a maximal run of ≥ 4 equal
characters collapses to 2 copies.  Regex `.` does not match a newline, so
newline runs are left alone. -/
def collapseRunsFuel : Nat → List Char → List Char
  | _, [] => []
  | 0, s => s
  | fuel + 1, c :: rest =>
    if c = '\n' then c :: collapseRunsFuel fuel rest
    else
      let run := rest.takeWhile (· = c)
      (if 4 ≤ run.length + 1 then [c, c] else c :: run) ++
        collapseRunsFuel fuel (rest.dropWhile (· = c))

/-- `re.sub(r'[^\w\s]', ' ', text)`: every character that is neither a word
character nor whitespace becomes a space. -/
def specialToSpace (s : List Char) : List Char :=
  s.map fun c => if isWordOrSpace c then c else ' '

/-- `re.sub(r'\s+', ' ', text)`: each maximal whitespace run becomes one
space. -/
def collapseWsFuel : Nat → List Char → List Char
  | _, [] => []
  | 0, s => s
  | fuel + 1, c :: rest =>
    if isSpaceChar c then
      ' ' :: collapseWsFuel fuel (rest.dropWhile isSpaceChar)
    else
      c :: collapseWsFuel fuel rest

/-- Python `str.strip()`: drop leading and trailing whitespace. -/
def pyStrip (s : List Char) : List Char :=
  ((s.dropWhile isSpaceChar).reverse.dropWhile isSpaceChar).reverse

/-- Python `str.split()` (no separator): maximal non-whitespace runs, empty
pieces skipped. -/
def splitWsFuel : Nat → List Char → List (List Char)
  | _, [] => []
  | 0, _ => []
  | fuel + 1, c :: rest =>
    if isSpaceChar c then splitWsFuel fuel rest
    else
      (c :: rest.takeWhile (fun x => !isSpaceChar x)) ::
        splitWsFuel fuel (rest.dropWhile (fun x => !isSpaceChar x))

/-- Python `str.split()` on a string's characters. -/
def splitWs (s : List Char) : List (List Char) :=
  splitWsFuel s.length s

/-- Python `' '.join(tokens)`. -/
def pyJoin : List (List Char) → List Char
  | [] => []
  | [w] => w
  | w :: ws => w ++ ' ' :: pyJoin ws
/-- The joy trigger-word list of `EmotionProcessor.emotion_lexicons`
(emotion_processor.py lines 20-232), in literal order, duplicates kept. -/
def joyLexicon : List String :=
  [
   "senang", "gembira", "bahagia", "suka", "riang", "ceria",
   "sumringah", "girang", "sukacita", "bergembira", "bersuka", "riang gembira",
   "puas", "memuaskan", "terpuaskan", "satisfying", "satisfied", "content",
   "lega", "tenang", "nyaman", "aman", "damai", "tenteram",
   "mantap", "mantul", "mantab", "josss", "jos", "joss",
   "juara", "super", "bagus", "keren", "hebat", "top",
   "terbaik", "maksimal", "optimal", "excellent", "good", "great",
   "awesome", "fantastic", "wonderful", "amazing", "outstanding", "brilliant",
   "superb", "magnificent", "sukses", "berhasil", "success", "successful",
   "winning", "win", "berjaya", "menang", "lancar", "mulus",
   "sempurna", "perfect", "cepat", "kilat", "instant", "responsif",
   "fast", "quick", "rapid", "efisien", "smooth", "lancar jaya",
   "terima kasih", "terimakasih", "makasih", "thanks", "thank you", "appreciate",
   "grateful", "syukur", "alhamdulillah", "terima", "recommended", "recommend",
   "terpercaya", "trusted", "reliable", "worth it", "worthed", "oke banget",
   "ok banget", "cocok", "unggul", "superior", "terdepan", "nomor satu",
   "no 1", "number one", "profesional", "berkualitas", "kualitas", "quality",
   "premium", "seneng", "happy", "happiness", "cheerful", "joyful",
   "delighted", "seru", "asik", "asyik", "menyenangkan", "fun",
   "enjoyable", "love", "suka banget", "cinta", "favorit", "favorite",
   "fav", "terfavorit", "kesukaan", "idola", "kagum", "mengagumkan",
   "impressive", "impressed", "inspiring", "memukau", "menakjubkan", "spektakuler",
   "spectacular", "stabil", "stable", "konsisten", "consistent", "terjamin",
   "solid", "kuat", "tangguh", "handal"
  ]

/-- The anger trigger-word list of `EmotionProcessor.emotion_lexicons`
(emotion_processor.py lines 20-232), in literal order, duplicates kept. -/
def angerLexicon : List String :=
  [
   "marah", "angry", "anger", "rage", "furious", "mad",
   "murka", "geram", "mengamuk", "berang", "gusar", "kesal",
   "jengkel", "dongkol", "sebal", "sebel", "annoyed", "annoying",
   "menyebalkan", "menjengkelkan", "irritated", "upset", "gondok", "gemes",
   "geregetan", "bete", "bt", "benci", "hate", "hatred",
   "muak", "jijay", "antipati", "tidak suka", "ga suka", "gak suka",
   "nggak suka", "bangsat", "sialan", "kampret", "brengsek", "keparat",
   "bajingan", "fuck", "shit", "damn", "hell", "asshole",
   "bitch", "anjing", "anjir", "anjay", "anjrit", "anj",
   "ajg", "anjg", "goblok", "tolol", "bodoh", "idiot",
   "stupid", "dungu", "bego", "tai", "kontol", "memek",
   "pepek", "jancuk", "jancok", "tidak profesional", "ga profesional", "gak profesional",
   "kurang profesional", "unprofessional", "amatir", "amateur", "asal", "sembarangan",
   "acak", "ngaco", "kacau", "chaos", "payah", "parah",
   "teruk", "jelek banget", "buruk sekali", "worst", "terrible", "horrible",
   "awful", "disgusting", "menyebalkan", "mengecewakan", "disappointing", "protes",
   "complain", "komplain", "keluhkan", "report", "laporkan", "somasi",
   "tuntut", "gugat", "boikot", "boycott", "blacklist", "batalkan",
   "cancel", "unsubscribe", "berhenti", "stop", "jangan lagi", "kapok",
   "curang", "tipu", "bohong", "penipuan", "scam", "fraud",
   "nipu", "menipu", "penipu", "pembohong", "liar", "hoax"
  ]

/-- The sadness trigger-word list of `EmotionProcessor.emotion_lexicons`
(emotion_processor.py lines 20-232), in literal order, duplicates kept. -/
def sadnessLexicon : List String :=
  [
   "sedih", "sad", "sadness", "sorrow", "grief", "unhappy",
   "duka", "pilu", "nelangsa", "sendu", "murung", "gloomy",
   "kecewa", "disappointed", "disappointing", "mengecewakan", "zonk", "gagal",
   "failure", "failed", "fail", "hancur", "broken", "terpuruk",
   "jatuh", "down", "depresi", "depressed", "depression", "hopeless",
   "putus asa", "frustasi", "frustrated", "frustrasi", "stress", "tertekan",
   "galau", "bingung", "confused", "lost", "tersesat", "ragu",
   "doubt", "uncertain", "tidak yakin", "menyesal", "regret", "rugi",
   "loss", "sia sia", "percuma", "sayang", "kasihan", "pity",
   "pathetic", "menyedihkan", "capek", "lelah", "tired", "exhausted",
   "burnout", "jenuh", "bosan", "bored", "boring", "membosankan",
   "penat", "letih", "lemas", "lemah", "weak", "menyerah",
   "give up", "resign", "pasrah", "tamat", "berakhir", "end",
   "ending", "selesai sudah", "habis", "rindu", "miss", "missing",
   "hilang", "kehilangan", "lost", "pergi", "gone", "ditinggal",
   "abandoned", "menderita", "suffering", "sakit", "pain", "painful",
   "tersiksa", "torture", "sengsara", "misery", "miserable", "tragis",
   "tragic", "tragedy", "tragedi", "naas", "malang", "sial",
   "unlucky", "nasib buruk"
  ]

/-- The fear trigger-word list of `EmotionProcessor.emotion_lexicons`
(emotion_processor.py lines 20-232), in literal order, duplicates kept. -/
def fearLexicon : List String :=
  [
   "takut", "fear", "scared", "afraid", "frightened", "terrified",
   "ngeri", "seram", "menakutkan", "scary", "spooky", "creepy",
   "khawatir", "worried", "worry", "concern", "concerned", "cemas",
   "anxious", "anxiety", "gelisah", "resah", "risau", "was was",
   "was-was", "waswas", "hawatir", "panik", "panic", "kalut",
   "kacau", "bingung panik", "deg degan", "deg-degan", "tegang", "tense",
   "nervous", "grogi", "gugup", "gemetar", "trembling", "bahaya",
   "dangerous", "danger", "berbahaya", "unsafe", "berisiko", "risky",
   "risk", "rawan", "rawan bahaya", "ancaman", "threat", "mengancam",
   "threatening", "tidak aman", "ga aman", "gak aman", "insecure", "rawan",
   "rentan", "vulnerable", "lemah", "horor", "horror", "menyeramkan",
   "mengerikan", "horrifying", "menakutkan", "frightening", "terrifying", "trauma",
   "traumatic", "fobia", "phobia", "nightmare", "mimpi buruk", "ketakutan",
   "paranoid", "paranoia", "ragu takut", "takut takut", "was was", "jangan jangan",
   "mudah mudahan tidak", "semoga tidak", "hopefully not", "shock", "shocked", "kaget takut",
   "terkejut takut", "oh no", "oh tidak", "aduh", "ampun", "tolong",
   "jangan sampai", "mudah mudahan aman", "hati hati", "waspada", "alert", "awas",
   "careful", "be careful"
  ]

/-- The surprise trigger-word list of `EmotionProcessor.emotion_lexicons`
(emotion_processor.py lines 20-232), in literal order, duplicates kept. -/
def surpriseLexicon : List String :=
  [
   "kaget", "terkejut", "surprised", "surprise", "shocking", "shocked",
   "shock", "mengejutkan", "mencengangkan", "heran", "terheran", "wonder",
   "wondering", "curious", "penasaran", "aneh", "strange", "weird",
   "odd", "takjub", "amazed", "amazing", "awe", "awesome",
   "menakjubkan", "memukau", "impressive", "spectacular", "tidak percaya", "ga percaya",
   "gak percaya", "unbelievable", "incredible", "serius", "serious", "beneran",
   "really", "masa", "masa sih", "apa iya", "benarkah", "is it true",
   "unexpected", "tiba tiba", "tiba-tiba", "mendadak", "terduga", "tidak terduga",
   "diluar dugaan", "ternyata", "rupanya", "oh ternyata", "oh rupanya", "wow",
   "woah", "waw", "wih", "wiw", "wah", "weh",
   "gila", "gile", "gokil", "gilak", "gilaaa", "anjir",
   "anjay", "anjrit", "astaga", "astagfirullah", "masyaallah", "subhanallah",
   "ya allah", "ya ampun", "serius", "serius nih", "beneran", "kok bisa",
   "gimana bisa", "how come", "what", "apa", "hah", "lho",
   "loh", "lo", "eh", "eeh", "heh", "ha",
   "what the", "omg", "oh my god", "oh my", "god", "demi apa",
   "demi tuhan", "ampun dah", "asli", "bener bener", "plot twist", "twist",
   "balik", "kebalikan", "berlawanan", "kontras", "berbeda", "beda banget"
  ]

/-- The disgust trigger-word list of `EmotionProcessor.emotion_lexicons`
(emotion_processor.py lines 20-232), in literal order, duplicates kept. -/
def disgustLexicon : List String :=
  [
   "jijik", "jijay", "disgusting", "disgust", "gross", "ew",
   "eww", "yuck", "yikes", "ugh", "muak", "mual",
   "enek", "eneg", "muntah", "nauseous", "pengen muntah", "mau muntah",
   "bikin mual", "bikin muntah", "jorok", "kotor", "dirty", "filthy",
   "najis", "cemar", "busuk", "bau", "smelly", "stink",
   "basi", "rotten", "menjijikkan", "hina", "rendah", "low",
   "despicable", "memalukan", "shameful", "shame", "embarrassing", "buruk",
   "jelek", "ugly", "bad", "terrible", "awful", "horrible",
   "worst", "terburuk", "paling jelek", "sampah", "trash", "garbage",
   "rubbish", "waste", "menyeramkan", "mengerikan", "horrifying", "horrific",
   "menakutkan", "disturbing", "disturb", "mengganggu", "keji", "kejam",
   "cruel", "sadis", "sadistic", "biadab", "brutal", "kasar",
   "harsh", "rough", "tolak", "reject", "menolak", "tidak mau",
   "ga mau", "ogah", "males", "kapok", "jangan", "no way",
   "parah", "parah banget", "teruk", "buruk sekali", "ancur", "hancur",
   "destroyed", "rusak parah", "tai", "taik", "shit", "crap",
   "poop", "babi", "pig", "swine", "bangkai", "sampah masyarakat"
  ]

/-- `EmotionProcessor.emotion_lexicons`: category to trigger-word lists, in
dict insertion order joy, anger, sadness, fear, surprise, disgust. -/
def emotionLexicons : List (String × List String) :=
  [("joy", joyLexicon), ("anger", angerLexicon), ("sadness", sadnessLexicon), ("fear", fearLexicon), ("surprise", surpriseLexicon), ("disgust", disgustLexicon)]

/-- The emoji conversion table of `EmotionProcessor.preprocess_text`
(emotion_processor.py lines 250-401). The source file is stored with a
double-encoded (mojibake) byte sequence for each emoji, so the literal keys the
Python program holds at runtime are exactly these character sequences.
A Python dict literal with duplicate keys keeps the first position and the last
value of each key; the pairs below are the resulting dict in iteration order. -/
def emotionEmojiDict : List (String × String) :=
  [
   ("ðŸ˜€", "senang gembira"),
   ("ðŸ˜ƒ", "senang riang"),
   ("ðŸ˜„", "senang ceria"),
   ("ðŸ˜", "sinis"),
   ("ðŸ˜†", "tertawa senang"),
   ("ðŸ˜…", "senang lega"),
   ("ðŸ¤£", "tertawa bahagia"),
   ("ðŸ˜‚", "lucu senang"),
   ("ðŸ™‚", "senang"),
   ("ðŸ™ƒ", "senang"),
   ("ï¿½ï¿½", "senang"),
   ("ðŸ˜Š", "senang puas"),
   ("ðŸ˜‡", "senang baik"),
   ("ðŸ¥°", "suka cinta"),
   ("ðŸ¤©", "kagum senang"),
   ("ðŸ˜˜", "suka sayang"),
   ("ðŸ˜—", "suka"),
   ("â˜ºï¸", "senang"),
   ("ðŸ˜š", "suka"),
   ("ðŸ˜™", "suka"),
   ("ðŸ¥²", "senang terharu"),
   ("ðŸ˜‹", "senang nikmat"),
   ("ðŸ˜›", "senang"),
   ("ðŸ˜œ", "senang seru"),
   ("ðŸ¤ª", "senang gokil"),
   ("ðŸ¤‘", "untung serakah"),
   ("ðŸ¤—", "senang hangat"),
   ("ðŸ¤\xad", "kaget"),
   ("ðŸ«¢", "kaget"),
   ("ðŸ«£", "kaget"),
   ("ðŸ¤«", "senang"),
   ("ðŸ¤”", "heran bingung"),
   ("ðŸ«¡", "wow"),
   ("ðŸ¤", "takut diam"),
   ("â¤ï¸", "suka cinta love"),
   ("ðŸ§¡", "suka cinta"),
   ("ðŸ’›", "suka cinta"),
   ("ðŸ’š", "oke bagus"),
   ("ðŸ’™", "suka cinta"),
   ("ðŸ’œ", "suka cinta"),
   ("ðŸ–¤", "sedih gelap"),
   ("ðŸ¤Ž", "suka"),
   ("ðŸ’•", "suka cinta"),
   ("ðŸ’ž", "suka cinta"),
   ("ðŸ’“", "suka cinta"),
   ("ðŸ’—", "suka cinta"),
   ("ðŸ’–", "suka cinta"),
   ("ðŸ’˜", "suka cinta"),
   ("ðŸ’", "suka cinta"),
   ("ðŸ’Ÿ", "suka cinta"),
   ("â£ï¸", "suka cinta"),
   ("â¤ï¸â€ðŸ”¥", "suka cinta mantap"),
   ("â¤ï¸â€ðŸ©¹", "sedih kecewa"),
   ("ðŸ‘", "bagus hebat"),
   ("ðŸ™Œ", "bagus senang"),
   ("ðŸ‘Œ", "oke bagus"),
   ("ðŸ¤Œ", "bagus"),
   ("âœŒï¸", "bagus damai"),
   ("ðŸ¤ž", "berharap"),
   ("ðŸ«°", "bagus"),
   ("ðŸ¤Ÿ", "suka love"),
   ("ðŸ¤˜", "keren"),
   ("ðŸ¤™", "oke"),
   ("ðŸ‘ˆ", "ini"),
   ("ðŸ‘‰", "itu"),
   ("ðŸ‘†", "atas"),
   ("ðŸ«µ", "kamu"),
   ("ðŸ‘‡", "bawah"),
   ("â˜ï¸", "mendung"),
   ("ðŸ‘Š", "semangat"),
   ("âœŠ", "semangat"),
   ("ðŸ¤›", "semangat"),
   ("ðŸ¤œ", "semangat"),
   ("ðŸ«¶", "cinta suka"),
   ("ðŸ™", "sedih"),
   ("ðŸ”¥", "bahaya"),
   ("ðŸ’¯", "bagus sempurna maksimal"),
   ("â\xad", "wow"),
   ("ðŸŒŸ", "wow bintang"),
   ("âœ¨", "wow cemerlang"),
   ("ðŸ’«", "wow"),
   ("âš¡", "petir cepat"),
   ("ðŸ’¥", "wow dahsyat"),
   ("ðŸŽ‰", "wow perayaan"),
   ("ðŸŽŠ", "wow perayaan"),
   ("ðŸŽˆ", "senang"),
   ("ðŸŽ", "senang hadiah"),
   ("ðŸŽ€", "senang"),
   ("ðŸŽ†", "wow"),
   ("ðŸŽ‡", "wow"),
   ("ðŸ§¨", "wow"),
   ("ðŸ†", "juara sukses menang"),
   ("ðŸ¥‡", "juara terbaik"),
   ("ðŸ¥ˆ", "bagus"),
   ("ðŸ¥‰", "bagus"),
   ("ðŸ…", "juara bagus"),
   ("ðŸŽ–ï¸", "bagus"),
   ("ðŸ˜\xa0", "marah kesal"),
   ("ðŸ˜¡", "marah geram"),
   ("ðŸ¤¬", "marah bangsat"),
   ("ðŸ˜¤", "kesal dongkol"),
   ("ðŸ˜¾", "marah kesal"),
   ("ðŸ‘¿", "jahat marah takut"),
   ("ðŸ˜ˆ", "jahat takut"),
   ("ðŸ’¢", "marah kesal"),
   ("ðŸ”ª", "bahaya marah"),
   ("ðŸ—¡ï¸", "bahaya marah"),
   ("âš”ï¸", "perang marah"),
   ("ðŸ’£", "marah meledak"),
   ("ðŸ‘Ž", "jelek buruk tidak setuju"),
   ("ðŸ–•", "marah bangsat"),
   ("âœ‹", "stop berhenti"),
   ("ðŸ›‘", "stop berhenti"),
   ("â›”", "tidak boleh"),
   ("ðŸš«", "tidak boleh dilarang"),
   ("âŒ", "salah tidak boleh"),
   ("âŽ", "salah tidak"),
   ("â\xad•", "salah"),
   ("ðŸš·", "dilarang"),
   ("ðŸš¯", "dilarang"),
   ("ðŸš³", "dilarang"),
   ("ðŸš±", "dilarang"),
   ("ðŸ“µ", "dilarang"),
   ("ðŸ”ž", "dilarang"),
   ("â˜¢ï¸", "bahaya"),
   ("â˜£ï¸", "bahaya"),
   ("âš\xa0ï¸", "bahaya hati hati"),
   ("ðŸ˜¢", "sedih menangis"),
   ("ðŸ˜\xad", "sedih menangis kecewa"),
   ("ðŸ˜¿", "sedih menangis"),
   ("ðŸ˜¥", "sedih kecewa"),
   ("ðŸ˜°", "takut khawatir"),
   ("ðŸ˜“", "sedih capek"),
   ("ðŸ˜ž", "sedih kecewa"),
   ("ðŸ˜”", "sedih"),
   ("ðŸ˜Ÿ", "sedih khawatir"),
   ("ðŸ˜•", "sedih bingung"),
   ("â˜¹ï¸", "sedih"),
   ("ðŸ˜£", "sedih frustasi"),
   ("ðŸ˜–", "sedih tersiksa"),
   ("ðŸ˜«", "sedih lelah"),
   ("ðŸ˜©", "sedih frustasi"),
   ("ðŸ¥º", "sedih kasihan mohon"),
   ("ðŸ˜ª", "ngantuk bosan"),
   ("ðŸ¤¤", "sedih"),
   ("ðŸ˜´", "bosan lelah"),
   ("ðŸ˜µ", "pusing"),
   ("ðŸ˜µâ€ðŸ’«", "pusing bingung"),
   ("ðŸ«¤", "kecewa"),
   ("ðŸ¥±", "bosan"),
   ("ðŸ˜®â€ðŸ’¨", "lelah lega"),
   ("ðŸ˜¶â€ðŸŒ«ï¸", "bingung"),
   ("ðŸ’”", "sedih kecewa patah hati"),
   ("âš«", "sedih gelap"),
   ("ðŸ’€", "takut mati"),
   ("â˜\xa0ï¸", "bahaya takut"),
   ("ðŸ‘»", "takut hantu"),
   ("ðŸ˜¨", "takut cemas"),
   ("ðŸ˜±", "kaget shock takut"),
   ("ðŸ˜§", "kaget cemas"),
   ("ðŸ˜¦", "kaget"),
   ("ðŸ˜®", "kaget heran"),
   ("ðŸ˜¯", "kaget heran"),
   ("ðŸ˜²", "kaget shock wow"),
   ("ðŸ«¨", "kaget gemetar"),
   ("ðŸ˜³", "kaget malu heran"),
   ("ðŸ¥¶", "dingin"),
   ("ðŸ˜¬", "takut canggung"),
   ("ðŸ™Š", "takut"),
   ("ðŸ™ˆ", "takut malu"),
   ("ðŸ™‰", "takut"),
   ("ðŸ‘¹", "takut seram"),
   ("ðŸ‘º", "takut marah"),
   ("ðŸ‘½", "takut aneh"),
   ("ðŸ‘¾", "takut"),
   ("ðŸ¤–", "robot"),
   ("ðŸ¤¯", "gila wow shock"),
   ("ðŸ™€", "kaget shock"),
   ("ðŸ§", "atm uang"),
   ("ðŸ«¥", "hilang"),
   ("ðŸ˜¶", "diam"),
   ("ðŸŒ\xa0", "wow"),
   ("ðŸ¤¢", "mual jijik"),
   ("ðŸ¤®", "muntah jijik mual"),
   ("ðŸ¤§", "sakit"),
   ("ðŸ˜·", "sakit"),
   ("ðŸ¤’", "sakit"),
   ("ðŸ¤•", "sakit"),
   ("ðŸ¥´", "mabuk pusing"),
   ("ðŸ«\xa0", "hancur"),
   ("ðŸ¥µ", "panas"),
   ("ðŸ’©", "tai jelek jijik"),
   ("ðŸš½", "toilet"),
   ("ðŸ§»", "kotor"),
   ("ðŸ—‘ï¸", "sampah jelek"),
   ("â™»ï¸", "daur ulang"),
   ("âš°ï¸", "mati"),
   ("ðŸª¦", "mati"),
   ("ðŸ©¸", "darah"),
   ("ðŸ¦\xa0", "virus jijik"),
   ("ðŸ€", "tikus jijik"),
   ("ðŸ", "ular bahaya"),
   ("ðŸ•·ï¸", "laba jijik"),
   ("ðŸ¦‚", "kalajengking bahaya"),
   ("ðŸ˜‘", "datar bosan"),
   ("ðŸ™„", "bosan"),
   ("ðŸ˜’", "bosan malas"),
   ("ðŸ¤¨", "curiga heran"),
   ("ðŸ¤“", "pintar"),
   ("ðŸ˜Ž", "keren"),
   ("ðŸ¥¸", "menyamar"),
   ("ðŸ¤¡", "badut lucu"),
   ("ðŸ¥³", "senang perayaan"),
   ("ðŸ˜Œ", "tenang"),
   ("âœ…", "benar bagus setuju"),
   ("â˜‘ï¸", "benar setuju"),
   ("âœ”ï¸", "benar bagus"),
   ("ðŸ†—", "oke"),
   ("ðŸ†’", "keren"),
   ("ðŸ†•", "baru"),
   ("ðŸ†“", "gratis"),
   ("ðŸŽ¯", "tepat bagus"),
   ("ðŸ“ˆ", "naik bagus"),
   ("ðŸ“‰", "turun jelek"),
   ("ðŸ’¹", "untung"),
   ("ðŸ’¸", "mahal rugi"),
   ("ðŸ’°", "uang untung"),
   ("ðŸ’µ", "uang"),
   ("ðŸ’´", "uang"),
   ("ðŸ’¶", "uang"),
   ("ðŸ’·", "uang"),
   ("ðŸ“±", "hp telepon"),
   ("ðŸ“²", "telepon"),
   ("â˜Žï¸", "telepon"),
   ("ðŸ“ž", "telepon"),
   ("ðŸ“Ÿ", "pager"),
   ("ðŸ“\xa0", "fax"),
   ("ðŸ’»", "komputer laptop"),
   ("ðŸ–¥ï¸", "komputer"),
   ("âŒ¨ï¸", "keyboard"),
   ("ðŸ–±ï¸", "mouse"),
   ("ðŸ–¨ï¸", "printer"),
   ("ðŸ’¾", "save"),
   ("ðŸ’¿", "cd"),
   ("ðŸ“€", "dvd"),
   ("ðŸ§®", "hitung"),
   ("ðŸ“¶", "sinyal internet"),
   ("ðŸ“¡", "sinyal antena"),
   ("ðŸ›œ", "wifi"),
   ("ðŸ“³", "getar"),
   ("ðŸ“´", "mati"),
   ("ðŸ”‹", "baterai"),
   ("ðŸª«", "lowbat"),
   ("ðŸ”Œ", "charger"),
   ("ðŸ’¡", "ide bagus"),
   ("ðŸ”¦", "lampu"),
   ("ðŸ•¯ï¸", "lilin"),
   ("ðŸª”", "lampu"),
   ("ðŸ’¨", "cepat"),
   ("ðŸƒ", "lari cepat"),
   ("ðŸƒâ€â™€ï¸", "lari cepat"),
   ("ðŸƒâ€â™‚ï¸", "lari cepat"),
   ("â°", "waktu"),
   ("â±ï¸", "waktu"),
   ("â²ï¸", "waktu"),
   ("âŒš", "jam"),
   ("âŒ›", "waktu habis"),
   ("â³", "waktu"),
   ("ðŸ•", "jam"),
   ("ðŸ•‘", "jam"),
   ("ðŸ•’", "jam"),
   ("â˜€ï¸", "cerah bagus"),
   ("ðŸŒ¤ï¸", "bagus"),
   ("â›…", "oke"),
   ("ðŸŒ¥ï¸", "mendung"),
   ("ðŸŒ¦ï¸", "hujan"),
   ("ðŸŒ§ï¸", "hujan sedih"),
   ("â›ˆï¸", "badai"),
   ("ðŸŒ©ï¸", "petir bahaya"),
   ("â„ï¸", "dingin"),
   ("ðŸŒ¨ï¸", "salju"),
   ("â˜ƒï¸", "salju"),
   ("â›„", "salju"),
   ("ðŸŒ¬ï¸", "angin"),
   ("ðŸ’§", "air"),
   ("ðŸ’¦", "basah"),
   ("â˜”", "hujan"),
   ("ðŸŒŠ", "ombak"),
   ("ðŸŒˆ", "bagus indah")
  ]

/-- The emoji conversion table of `SentimentProcessor.preprocess_text`
(sentiment_processor.py lines 106-114), in dict iteration order. -/
def sentimentEmojiDict : List (String × String) :=
  [
   ("😊", "senang"),
   ("😢", "sedih"),
   ("😡", "marah"),
   ("😍", "suka"),
   ("👍", "bagus"),
   ("👎", "jelek"),
   ("❤️", "suka"),
   ("💔", "kecewa"),
   ("😂", "lucu"),
   ("😭", "menangis"),
   ("🔥", "bagus"),
   ("💯", "bagus"),
   ("😀", "senang"),
   ("😃", "senang"),
   ("😄", "senang"),
   ("😁", "senang"),
   ("🙏", "terima_kasih"),
   ("👌", "oke"),
   ("✅", "benar"),
   ("❌", "salah"),
   ("💸", "mahal"),
   ("💰", "murah"),
   ("📶", "sinyal"),
   ("📡", "internet"),
   ("🚫", "tidak"),
   ("⚡", "cepat"),
   ("🐌", "lambat")
  ]

/-- The stopword set `stopwords_id` of `SentimentProcessor.preprocess_text`
(sentiment_processor.py lines 159-174). Two pairs of adjacent string literals
lack a separating comma in the source, so Python implicit string concatenation
produces the single elements \x22vionideh\x22 and \x22ataskontol\x22 (and the
words deh, atas, kontol, vioni are NOT separate members). Membership is what
matters for a Python set; duplicates removed. -/
def stopwordsId : List String :=
  [
   "yang", "dan", "di", "dengan", "untuk", "pada",
   "adalah", "ini", "itu", "dari", "ke", "tidak",
   "atau", "juga", "akan", "telah", "dapat", "ada",
   "dalam", "saya", "kamu", "dia", "mereka", "kami",
   "sudah", "belum", "masih", "sangat", "sekali", "hanya",
   "bisa", "mau", "ingin", "perlu", "harus", "kak",
   "ka", "gan", "sis", "bro", "min", "admin",
   "cs", "halo", "hai", "selamat", "pagi", "siang",
   "sore", "malam", "mohon", "tolong", "cek", "thanks",
   "thx", "makasih", "terimakasih", "makasi", "terima", "kasih",
   "ya", "yah", "iya", "ok", "oke", "dong",
   "nala", "pau", "vionideh", "nih", "sih", "loh",
   "wkwk", "hehe", "hihi", "nya", "kok", "indihome",
   "kakak", "jadi", "ataskontol", "anjing", "bangsat", "bajingan",
   "memek", "pepek", "kampret", "goblok", "tolol", "tai",
   "brengsek", "jancuk", "keparat", "sialan", "perek", "sundal",
   "lonte", "pelacur", "babi", "ajg", "anjng", "anj"
  ]

/-- `positive_words` of `SentimentProcessor._fallback_sentiment`
(sentiment_processor.py lines 219-223). -/
def positiveWords : List String :=
  [
   "bagus", "baik", "senang", "puas", "cepat", "lancar",
   "mantap", "oke", "terima kasih", "thanks", "good", "fast",
   "smooth", "great", "sukses", "mantul", "keren", "top",
   "recommended", "hebat", "memuaskan"
  ]

/-- `negative_words` of `SentimentProcessor._fallback_sentiment`
(sentiment_processor.py lines 225-231). -/
def negativeWords : List String :=
  [
   "lambat", "lemot", "jelek", "buruk", "kecewa", "marah",
   "kesal", "gangguan", "error", "rusak", "masalah", "complain",
   "komplain", "bad", "slow", "worst", "terrible", "parah",
   "payah", "down", "los", "mati", "putus", "lag",
   "kaga", "gak jalan", "ga bisa", "kendala", "keluhan", "mengecewakan",
   "zonk", "lelet", "anjlok"
  ]

/-- The shared trailing steps 2-9 of both `preprocess_text` functions
(the two functions differ only in the emoji table, the URL regexes and the
final stopword step): mention removal, hashtag processing, emoji-range
removal, lowercasing, repeated-character collapsing, special-character
replacement, whitespace collapsing and stripping. -/
def commonTail (s : List Char) : List Char :=
  let t4 := stripMentionsFuel s.length s
  let t5 := procHashtagsFuel t4.length t4
  let t6 := stripEmojiRunsFuel t5.length t5
  let t7 := t6.map Char.toLower
  let t8 := collapseRunsFuel t7.length t7
  let t9 := specialToSpace t8
  pyStrip (collapseWsFuel t9.length t9)

/-- The stopword set as lists of characters (Python set membership is by
string value; order and duplicates are irrelevant). -/
def stopwordsIdChars : List (List Char) :=
  stopwordsId.map String.data

/-- `SentimentProcessor.preprocess_text` on a (non-null, non-empty) string:
steps 1-10 of sentiment_processor.py lines 105-180, in source order. -/
def sentimentPipeline (s : List Char) : List Char :=
  let t1 := sentimentEmojiDict.foldl
    (fun acc kv => pyReplace kv.1.data (' ' :: kv.2.data ++ [' ']) acc) s
  let t2 := stripHttpFuel urlChar t1.length t1
  let t3 := stripWwwFuel urlChar t2.length t2
  let t10 := commonTail t3
  let kept := (splitWs t10).filter
    (fun w => !stopwordsIdChars.contains w && 2 < w.length)
  pyJoin kept

/-- Characters accepted by regex `\S` (non-whitespace), used by the emotion
engine's URL regexes `http[s]?://\S+` and `www\.\S+`. -/
def nonSpaceChar (c : Char) : Bool :=
  !isSpaceChar c

/-- `EmotionProcessor.preprocess_text` on a (non-null, non-empty) string:
emotion_processor.py lines 249-445, in source order.  Unlike the sentiment
pipeline it has no stopword / token-length step. -/
def emotionPipeline (s : List Char) : List Char :=
  let t1 := emotionEmojiDict.foldl
    (fun acc kv => pyReplace kv.1.data (' ' :: kv.2.data ++ [' ']) acc) s
  let t2 := stripHttpFuel nonSpaceChar t1.length t1
  let t3 := stripWwwFuel nonSpaceChar t2.length t2
  commonTail t3

/-- `SentimentProcessor.preprocess_text` including the null/empty guard
(`pd.isna(text) or text == ''` yields `""`); `none` models a null/NaN
input. -/
def preprocessTextSentiment : Option String → String
  | none => ""
  | some s => if s = "" then "" else ⟨sentimentPipeline s.data⟩

/-- `EmotionProcessor.preprocess_text` including the null/empty guard. -/
def preprocessTextEmotion : Option String → String
  | none => ""
  | some s => if s = "" then "" else ⟨emotionPipeline s.data⟩

/-- The score one lexicon word contributes in
`EmotionProcessor.predict_emotion` (emotion_processor.py lines 464-471):
2 if the word occurs space-delimited (`f' {word} ' in f' {text} '`),
1 if it occurs only as a bare substring, 0 otherwise. -/
def emotionWordScore (textLower w : List Char) : Nat :=
  if strContains w textLower then
    if strContains (' ' :: w ++ [' ']) (' ' :: textLower ++ [' ']) then 2
    else 1
  else 0

/-- Total score of one emotion category: the sum over its trigger-word list
(duplicated list entries contribute twice, as in the Python loop). -/
def emotionScore (textLower : List Char) (ws : List String) : Nat :=
  (ws.map fun w => emotionWordScore textLower w.data).sum

/-- The `emotion_scores` dict of `predict_emotion`, in key insertion order. -/
def emotionScoresList (textLower : List Char) : List (String × Nat) :=
  emotionLexicons.map fun p => (p.1, emotionScore textLower p.2)

/-- `EmotionProcessor.predict_emotion` (emotion_processor.py lines 447-484):
guard empty/whitespace-only input, lowercase, score every category, take the
maximum, return `neutral` when it is 0, otherwise the first category (in
dict order joy, anger, sadness, fear, surprise, disgust) whose score equals
the maximum. -/
def predictEmotion (text : String) : String :=
  if text = "" || (pyStrip text.data).length = 0 then "neutral"
  else
    let scores := emotionScoresList (text.data.map Char.toLower)
    let maxScore := (scores.map Prod.snd).foldl Nat.max 0
    if maxScore = 0 then "neutral"
    else
      match scores.find? (fun p => p.2 = maxScore) with
      | some p => p.1
      | none => "neutral"

/-- Number of `positive_words` entries occurring in the lowercased text:
`sum(1 for word in positive_words if word in text_lower)`
(each trigger counts once however often it occurs). -/
def posCount (text : String) : Nat :=
  (positiveWords.filter fun w => strContains w.data (text.data.map Char.toLower)).length

/-- Number of `negative_words` entries occurring in the lowercased text. -/
def negCount (text : String) : Nat :=
  (negativeWords.filter fun w => strContains w.data (text.data.map Char.toLower)).length

/-- `SentimentProcessor._fallback_sentiment`
(sentiment_processor.py lines 208-242). -/
def fallbackSentiment (text : String) : String :=
  if negCount text > posCount text then "negative"
  else if posCount text > negCount text then "positive"
  else "neutral"

/-- Round-half-to-even to an integer, the behaviour of Python's `round` on
exact values (binary floating-point representation error is outside the
model). -/
def pyRoundInt (q : ℚ) : ℤ :=
  if q - ⌊q⌋ = 1 / 2 then (if Even ⌊q⌋ then ⌊q⌋ else ⌊q⌋ + 1)
  else ⌊q + 1 / 2⌋

/-- Python `round(x, 2)`. -/
def pyRound2 (q : ℚ) : ℚ :=
  (pyRoundInt (q * 100) : ℚ) / 100

/-- Python `round(x, 1)`. -/
def pyRound1 (q : ℚ) : ℚ :=
  (pyRoundInt (q * 10) : ℚ) / 10

/-- Python `int(x)`: truncation toward zero. -/
def pyInt (q : ℚ) : ℤ :=
  if 0 ≤ q then ⌊q⌋ else ⌈q⌉

/-- One entry of a report distribution: `{'count': ..., 'percentage': ...}`. -/
structure DistEntry where
  count : Nat
  percentage : ℚ
deriving DecidableEq, Repr

/-- The `sentiment_distribution` of
`SentimentProcessor.generate_sentiment_report`
(sentiment_processor.py lines 380-390): for each distinct label of the
`sentiment` column its row count and `round(count/total*100, 2)`.
`value_counts()` enumerates labels by descending count; only the keyed
content matters to the claims here, so labels are enumerated in first-seen
order (`dedup`). -/
def sentimentDistribution (labels : List String) : List (String × DistEntry) :=
  labels.dedup.map fun l =>
    (l, ⟨labels.count l, pyRound2 ((labels.count l : ℚ) / labels.length * 100)⟩)

/-- The `emotion_distribution` of `EmotionProcessor.generate_emotion_report`
(emotion_processor.py lines 538-548), same shape as the sentiment one. -/
def emotionDistribution (labels : List String) : List (String × DistEntry) :=
  labels.dedup.map fun l =>
    (l, ⟨labels.count l, pyRound2 ((labels.count l : ℚ) / labels.length * 100)⟩)

/-- One distribution entry as read by the recommendation engine:
`dist.get(key, {}).get('percentage', 0)`; `none` models an absent
`percentage` key. -/
structure PctEntry where
  percentage : Option ℚ
deriving Repr, DecidableEq

/-- `dist.get(k, {}).get('percentage', 0)` on the association-list model of
a distribution dict (first binding wins, as in a Python dict). -/
def pctGet (d : List (String × PctEntry)) (k : String) : ℚ :=
  match d.find? fun p => p.1 = k with
  | some p => p.2.percentage.getD 0
  | none => 0

/-- One element of `engagement_by_type`
(shape produced by `DataProcessor.get_engagement_by_type`); the
recommendation engine reads only `type` and `total`. -/
structure TypeEngagement where
  type : String
  likes : ℚ
  replies : ℚ
  retweets : ℚ
  total : ℚ
deriving Repr, DecidableEq

/-- The engagement-statistics dict fields read by the recommendation
engine; a `none` field models an absent key. -/
structure EngagementData where
  engagement_by_type : Option (List TypeEngagement)
  total_engagement : Option ℚ
  total_posts : Option ℚ
deriving Repr

/-- The result dict of
`RecommendationProcessor._calculate_performance_score`
(recommendation_processor.py lines 506-588). -/
structure PerfScores where
  sentiment_score : ℚ
  emotion_score : ℚ
  engagement_score : ℚ
  overall_score : ℚ
  rating : String
  rating_icon : String
  rating_color : String
deriving Repr

/-- `RecommendationProcessor._calculate_performance_score`
(recommendation_processor.py lines 506-588).  A `none` argument models a
falsy input dict or one missing the required distribution key, in which
case the corresponding sub-score keeps its initial value 0.  The `rating`
tiers are applied to the local `overall_score` variable, i.e. the weighted
sum before its 1-decimal rounding. -/
def calculatePerformanceScore
    (sentimentDist emotionDist : Option (List (String × PctEntry)))
    (engagementData : Option EngagementData) : PerfScores :=
  let sentimentScore : ℚ :=
    match sentimentDist with
    | none => 0
    | some dist =>
      pyRound1 (min 100 (max 0 (pctGet dist "positive" - pctGet dist "negative" + 50)))
  let emotionScore : ℚ :=
    match emotionDist with
    | none => 0
    | some dist =>
      pyRound1 (min 100 (max 0
        (pctGet dist "joy" -
          (pctGet dist "anger" + pctGet dist "sadness" + pctGet dist "disgust") + 50)))
  let engagementScore : ℚ :=
    match engagementData with
    | none => 0
    | some gd =>
      let totalPosts := gd.total_posts.getD 1
      let totalEngagement := gd.total_engagement.getD 0
      let avg := if 0 < totalPosts then totalEngagement / totalPosts else 0
      pyRound1 (if 200 ≤ avg then 100 else if 100 ≤ avg then 75
        else if 50 ≤ avg then 50 else avg / 50 * 50)
  let overall :=
    sentimentScore * (35 / 100) + emotionScore * (35 / 100) +
      engagementScore * (30 / 100)
  { sentiment_score := sentimentScore
    emotion_score := emotionScore
    engagement_score := engagementScore
    overall_score := pyRound1 overall
    rating :=
      if 80 ≤ overall then "Excellent"
      else if 60 ≤ overall then "Good"
      else if 40 ≤ overall then "Fair"
      else "Poor"
    rating_icon :=
      if 80 ≤ overall then "🌟"
      else if 60 ≤ overall then "👍"
      else if 40 ≤ overall then "⚠️"
      else "❌"
    rating_color :=
      if 80 ≤ overall then "#10b981"
      else if 60 ≤ overall then "#3b82f6"
      else if 40 ≤ overall then "#f59e0b"
      else "#ef4444" }

/-- One generated recommendation record
(the dict literals of the `_analyze_*` methods). -/
structure Recommendation where
  category : String
  priority : String
  title : String
  description : String
  actionable_steps : List String
  impact : String
  effort : String
deriving Repr, DecidableEq

/-- Modelling of Python's f-string rendering of a number
(`f'{x}'`, `f'{x:.0f}'`, `f'{x:,}'`).  The rendered digits are irrelevant
to every claim settled here (only categories, priorities and order
matter), so one placeholder rendering is used for all of them. -/
def pyNumStr (q : ℚ) : String :=
  toString q

/-- `priority_levels[p]['weight']` (recommendation_processor.py lines
24-29).  Looking up any other key would raise in Python; every generated
recommendation carries one of the four listed priorities, so the extra
total-function default 0 is never exercised. -/
def priorityWeight (p : String) : Nat :=
  if p = "critical" then 1
  else if p = "high" then 2
  else if p = "medium" then 3
  else if p = "low" then 4
  else 0

/-- `RecommendationProcessor._analyze_sentiment`
(recommendation_processor.py lines 93-172). -/
def analyzeSentimentRecs (sd : Option (List (String × PctEntry))) :
    List Recommendation :=
  match sd with
  | none => []
  | some dist =>
    let negativePct := pctGet dist "negative"
    let positivePct := pctGet dist "positive"
    let neutralPct := pctGet dist "neutral"
    (if 40 < negativePct then
      [{ category := "Sentiment", priority := "critical",
         title := "High Negative Sentiment Detected",
         description := pyNumStr negativePct ++
           "% of interactions are negative. Immediate action required.",
         actionable_steps :=
           ["Analyze negative sentiment word clouds to identify key issues",
            "Prioritize response to complaints and concerns",
            "Create targeted campaigns to address common pain points",
            "Set up automated alerts for negative sentiment spikes"],
         impact := "High - Customer satisfaction at risk", effort := "High" }]
     else if 25 < negativePct then
      [{ category := "Sentiment", priority := "high",
         title := "Moderate Negative Sentiment",
         description := pyNumStr negativePct ++
           "% of interactions are negative. Monitor closely.",
         actionable_steps :=
           ["Review common negative topics and address systematically",
            "Improve response time for customer complaints",
            "Launch customer satisfaction improvement initiatives"],
         impact := "Medium - Potential reputation impact", effort := "Medium" }]
     else []) ++
    (if positivePct < 30 then
      [{ category := "Sentiment", priority := "high",
         title := "Low Positive Sentiment",
         description := "Only " ++ pyNumStr positivePct ++
           "% of interactions are positive. Room for improvement.",
         actionable_steps :=
           ["Identify and replicate positive interaction patterns",
            "Encourage positive user testimonials and reviews",
            "Launch engagement campaigns to boost positive sentiment",
            "Highlight success stories and positive experiences"],
         impact := "Medium - Growth opportunity", effort := "Medium" }]
     else []) ++
    (if 50 < neutralPct then
      [{ category := "Sentiment", priority := "medium",
         title := "High Neutral Sentiment",
         description := pyNumStr neutralPct ++
           "% of interactions are neutral. Opportunity to increase engagement.",
         actionable_steps :=
           ["Create more engaging content to evoke emotional responses",
            "Use storytelling to connect with audience emotionally",
            "Implement interactive campaigns and polls",
            "Personalize communications to increase relevance"],
         impact := "Low - Engagement optimization", effort := "Low" }]
     else [])

/-- `RecommendationProcessor._analyze_emotions`
(recommendation_processor.py lines 174-275). -/
def analyzeEmotionRecs (ed : Option (List (String × PctEntry))) :
    List Recommendation :=
  match ed with
  | none => []
  | some dist =>
    let angerPct := pctGet dist "anger"
    let sadnessPct := pctGet dist "sadness"
    let fearPct := pctGet dist "fear"
    let joyPct := pctGet dist "joy"
    let disgustPct := pctGet dist "disgust"
    (if 15 < angerPct then
      [{ category := "Emotion", priority := "critical",
         title := "High Anger Levels Detected",
         description := pyNumStr angerPct ++
           "% of interactions show anger. Critical customer dissatisfaction.",
         actionable_steps :=
           ["Review anger-related word clouds for specific complaints",
            "Implement immediate resolution protocols for angry customers",
            "Train support team in de-escalation techniques",
            "Address root causes identified in anger-related topics"],
         impact := "Critical - Brand reputation at risk", effort := "High" }]
     else []) ++
    (if 5 < fearPct then
      [{ category := "Emotion", priority := "high",
         title := "Customer Anxiety Detected",
         description := pyNumStr fearPct ++
           "% of interactions show fear/anxiety. Address concerns promptly.",
         actionable_steps :=
           ["Identify sources of customer anxiety in word clouds",
            "Provide clear, transparent communication about services",
            "Offer reassurance and guarantees where appropriate",
            "Create FAQ and knowledge base for common concerns"],
         impact := "High - Trust and confidence at stake", effort := "Medium" }]
     else []) ++
    (if 10 < sadnessPct then
      [{ category := "Emotion", priority := "high",
         title := "High Disappointment Levels",
         description := pyNumStr sadnessPct ++
           "% of interactions show sadness/disappointment.",
         actionable_steps :=
           ["Analyze disappointment triggers from word clouds",
            "Set realistic expectations in marketing materials",
            "Improve product/service quality in identified areas",
            "Implement customer success programs"],
         impact := "High - Customer retention at risk", effort := "High" }]
     else []) ++
    (if joyPct < 25 then
      [{ category := "Emotion", priority := "medium",
         title := "Low Joy/Satisfaction Levels",
         description := "Only " ++ pyNumStr joyPct ++
           "% of interactions show joy. Increase positive experiences.",
         actionable_steps :=
           ["Study joy-related word clouds for success patterns",
            "Replicate conditions that generate positive emotions",
            "Celebrate customer wins and milestones",
            "Create moments of delight in customer journey"],
         impact := "Medium - Customer loyalty opportunity", effort := "Medium" }]
     else []) ++
    (if 5 < disgustPct then
      [{ category := "Emotion", priority := "critical",
         title := "Disgust/Strong Negative Reactions",
         description := pyNumStr disgustPct ++
           "% of interactions show disgust. Severe quality issues.",
         actionable_steps :=
           ["Immediately investigate disgust-related complaints",
            "Conduct quality audit of products/services",
            "Implement stringent quality control measures",
            "Issue public statement if widespread issue identified"],
         impact := "Critical - Severe reputation damage", effort := "High" }]
     else [])

/-- One element of `topic_engagement`; the recommendation engine reads only
`topic_label` and `total_engagement`. -/
structure TopicEngagement where
  topic_label : String
  total_engagement : ℚ
deriving Repr, DecidableEq

/-- Insert `x` after every leading element `y` of `acc` with `le y x`: the
insertion step of a stable insertion sort. -/
def insertStable (le : α → α → Bool) (x : α) : List α → List α
  | [] => [x]
  | y :: ys => if le y x then y :: insertStable le x ys else x :: y :: ys

/-- Stable sort by a boolean relation.  Python's `list.sort` and `sorted`
are stable; a stable sort by a total preorder is extensionally unique, so
an insertion sort models them exactly. -/
def stableSort (le : α → α → Bool) (l : List α) : List α :=
  l.foldl (fun acc x => insertStable le x acc) []

/-- `RecommendationProcessor._analyze_topics`
(recommendation_processor.py lines 277-329).  `sorted(..., reverse=True)`
is the stable descending sort by `total_engagement`. -/
def analyzeTopicsRecs (td : Option (List TopicEngagement)) :
    List Recommendation :=
  match td with
  | none => []
  | some topicEngagement =>
    let sortedTopics := stableSort
      (fun y x => decide (x.total_engagement ≤ y.total_engagement))
      topicEngagement
    match sortedTopics with
    | [] => []
    | topTopic :: _ =>
      [{ category := "Topics", priority := "medium",
         title := "Top Performing Topic: " ++ topTopic.topic_label,
         description := "This topic has " ++ pyNumStr topTopic.total_engagement ++
           " total engagement.",
         actionable_steps :=
           ["Create more content related to this topic",
            "Analyze what makes this topic resonate with audience",
            "Expand on sub-topics within this category",
            "Use similar messaging and tone in other topics"],
         impact := "Medium - Content strategy optimization", effort := "Low" }] ++
      (if 2 < sortedTopics.length then
        let lowTopic := sortedTopics.getLastD topTopic
        [{ category := "Topics", priority := "low",
           title := "Low Engagement Topic: " ++ lowTopic.topic_label,
           description := "This topic has only " ++
             pyNumStr lowTopic.total_engagement ++ " engagement.",
           actionable_steps :=
             ["Reevaluate relevance of this topic to audience",
              "Consider discontinuing or restructuring this topic",
              "Test different angles or approaches for this topic",
              "Merge with higher-performing related topics"],
           impact := "Low - Resource optimization", effort := "Low" }]
       else [])

/-- `RecommendationProcessor._analyze_engagement`
(recommendation_processor.py lines 331-386). -/
def analyzeEngagementRecs (gd : Option EngagementData) :
    List Recommendation :=
  match gd with
  | none => []
  | some g =>
    let byTypeRecs :=
      match g.engagement_by_type with
      | none => []
      | some engTypes =>
        let totalEng := (engTypes.map fun e => e.total).sum
        let avgEng : ℚ :=
          if engTypes.isEmpty then 0 else totalEng / engTypes.length
        (engTypes.filter fun e => decide (e.total < avgEng * (1 / 2))).map
          fun e =>
            { category := "Engagement", priority := "medium",
              title := "Low Engagement for " ++ e.type,
              description := e.type ++ " has below-average engagement.",
              actionable_steps :=
                ["Review and optimize " ++ e.type ++ " content strategy",
                 "Test different formats and messaging",
                 "Increase posting frequency for high-performing formats",
                 "A/B test different approaches"],
              impact := "Medium - Engagement optimization", effort := "Medium" }
    let overallRecs :=
      match g.total_engagement with
      | none => []
      | some totalEngagement =>
        let totalPosts := g.total_posts.getD 1
        let avg := if 0 < totalPosts then totalEngagement / totalPosts else 0
        if avg < 100 then
          [{ category := "Engagement", priority := "high",
             title := "Low Overall Engagement Rate",
             description := "Average engagement per post is " ++
               pyNumStr avg ++ ".",
             actionable_steps :=
               ["Review and revamp content strategy",
                "Increase use of visual content (images, videos)",
                "Post during peak engagement hours",
                "Use trending hashtags and topics",
                "Engage with audience through polls and questions"],
             impact := "High - Visibility and reach", effort := "Medium" }]
        else []
    byTypeRecs ++ overallRecs

/-- `RecommendationProcessor._analyze_timing`
(recommendation_processor.py lines 388-416). -/
def analyzeTimingRecs (pd : Option (List ℕ)) : List Recommendation :=
  match pd with
  | none => []
  | some peakHours =>
    if peakHours.isEmpty then []
    else
      let peakHoursStr := String.intercalate ", "
        ((peakHours.take 3).map fun h => toString h ++ ":00")
      [{ category := "Timing", priority := "medium",
         title := "Optimize Posting Schedule",
         description := "Peak activity hours are: " ++ peakHoursStr,
         actionable_steps :=
           ["Schedule important posts during peak hours: " ++ peakHoursStr,
            "Use social media scheduling tools for optimal timing",
            "Test posting at different times within peak windows",
            "Monitor engagement rates by posting time",
            "Adjust content calendar based on peak activity patterns"],
         impact := "Medium - Visibility and engagement", effort := "Low" }]

/-- The concatenation of the five rule engines' outputs in generation
order, before the priority sort (recommendation_processor.py lines 49-64). -/
def generatedRecs (sd ed : Option (List (String × PctEntry)))
    (td : Option (List TopicEngagement)) (gd : Option EngagementData)
    (pd : Option (List ℕ)) : List Recommendation :=
  analyzeSentimentRecs sd ++ analyzeEmotionRecs ed ++ analyzeTopicsRecs td ++
    analyzeEngagementRecs gd ++ analyzeTimingRecs pd

/-- The result of `RecommendationProcessor.generate_recommendations`.  The
`insights` summary (`_generate_insights`) has no influence on the
recommendation list and is not modelled. -/
structure RecommendationReport where
  recommendations : List Recommendation
  priority_actions : List Recommendation
  performance_score : PerfScores
  total_recommendations : Nat
deriving Repr

/-- `RecommendationProcessor.generate_recommendations`
(recommendation_processor.py lines 31-91): generate across the five
engines, stable-sort by `priority_levels[...]['weight']`, take the first 5
critical/high ones as `priority_actions`, attach the performance score. -/
def generateRecommendations (sd ed : Option (List (String × PctEntry)))
    (td : Option (List TopicEngagement)) (gd : Option EngagementData)
    (pd : Option (List ℕ)) : RecommendationReport :=
  let sortedRecs := stableSort
    (fun a b => decide (priorityWeight a.priority ≤ priorityWeight b.priority))
    (generatedRecs sd ed td gd pd)
  { recommendations := sortedRecs
    priority_actions :=
      (sortedRecs.filter fun r =>
        r.priority = "critical" || r.priority = "high").take 5
    performance_score := calculatePerformanceScore sd ed gd
    total_recommendations := sortedRecs.length }

/-- Unique elements in first-occurrence order (Python dict /
`collections.Counter` key order). -/
def uniqueFirstAux [DecidableEq α] (seen : List α) : List α → List α
  | [] => []
  | h :: t =>
    if h ∈ seen then uniqueFirstAux seen t
    else h :: uniqueFirstAux (h :: seen) t

/-- Unique elements in first-occurrence order. -/
def uniqueFirst [DecidableEq α] (l : List α) : List α :=
  uniqueFirstAux [] l

/-- One entry of the `peak_ranges` list of
`DataProcessor.get_peak_activity_hours`
(data_processor.py lines 377-383). -/
structure PeakRange where
  cluster_id : ℤ
  start_hour : ℕ
  end_hour : ℕ
  range : String
  avg_activity : ℤ
deriving Repr, DecidableEq

/-- Python `f'{n:02d}'` for a natural number. -/
def format02 (n : ℕ) : String :=
  if n < 10 then "0" ++ toString n else toString n

/-- `np.min` over a nonempty list (0 on the never-exercised empty list). -/
def listMinD (l : List ℕ) : ℕ :=
  match l with
  | [] => 0
  | h :: t => t.foldl Nat.min h

/-- `np.max` over a nonempty list (0 on the never-exercised empty list). -/
def listMaxD (l : List ℕ) : ℕ :=
  match l with
  | [] => 0
  | h :: t => t.foldl Nat.max h

/-- `np.mean` of a list of naturals, as an exact rational. -/
def ratMean (l : List ℕ) : ℚ :=
  (l.map (Nat.cast : ℕ → ℚ)).sum / l.length

/-- The peak-range reporting stage of `DataProcessor.get_peak_activity_hours`
(data_processor.py lines 360-386): drop outlier rows (label `-1`), and for
each remaining cluster label report the min/max hour, the
`"HH:00 - HH:00"` range string, and `avg_activity = int(np.mean(...))` of
the rows' COLUMN 0 values, i.e. of the cluster's hours (`cluster_hours =
non_outlier_hours[cluster_mask][:, 0]`); finally the stable sort by
`avg_activity` descending.  Python iterates `set(non_outlier_labels)`;
for the small non-negative ints produced by DBSCAN that enumeration is
ascending, which is how it is modelled (it can only affect the order of
exact ties of the final sort). -/
def buildPeakRanges (X : List (ℕ × ℕ)) (labels : List ℤ) : List PeakRange :=
  let pairs := X.zip labels
  let nonOutlier := pairs.filter fun p => decide (p.2 ≠ -1)
  let clusters := stableSort (fun a b => decide (a ≤ b))
    (uniqueFirst (nonOutlier.map Prod.snd))
  let ranges := clusters.map fun c =>
    let clusterHours := (nonOutlier.filter fun p => decide (p.2 = c)).map
      fun p => p.1.1
    let minHour := listMinD clusterHours
    let maxHour := listMaxD clusterHours
    { cluster_id := c, start_hour := minHour, end_hour := maxHour,
      range := format02 minHour ++ ":00 - " ++ format02 maxHour ++ ":00",
      avg_activity := pyInt (ratMean clusterHours) }
  stableSort (fun y x => decide (x.avg_activity ≤ y.avg_activity)) ranges

/-- The three outcome shapes of `DataProcessor.get_peak_activity_hours`:
the empty dict returned when the replies frame is empty (or on an internal
exception), the `{"error": "Not enough data for clustering"}` payload, and
a clustering result (whose modelled fields are the `peak_ranges` list and
the `total_hours_analyzed` / `unique_hours` / `num_clusters` /
`num_outliers` counters; the floating-point PCA `scatter_data` is outside
the model and not consulted by any claim). -/
inductive PeakOutcome where
  | emptyResult : PeakOutcome
  | insufficientData : PeakOutcome
  | clustered (peak_ranges : List PeakRange) (total_hours_analyzed : ℕ)
      (unique_hours : ℕ) (num_clusters : ℕ) (num_outliers : ℕ) : PeakOutcome
deriving Repr, DecidableEq

/-- `DataProcessor.get_peak_activity_hours` (data_processor.py lines
322-423).  `parsedDates` holds one entry per row of the replies frame:
`some h` when `parse_twitter_date` succeeds with `dt.hour = h`, `none` when
it returns `None`.  `dbscanLabels` abstracts
`DBSCAN(eps=0.5, min_samples=2).fit_predict` composed with the
`StandardScaler`; every claim settled here holds for an arbitrary labelling
function, so the clustering numerics need no model.  The guard
`len(hours) < 2` counts parseable timestamps, repetitions included.  When
the feature matrix has a single row (all parseable timestamps in one
distinct hour), `PCA(n_components=2).fit_transform` (lines 389-390) raises
`ValueError` (`n_components` must be at most `min(n_samples, n_features)`,
here 1) after the peak ranges are built but before anything is returned,
and the enclosing `except` handler (lines 419-423) returns the empty dict:
that path is the `.emptyResult` branch on `X.length < 2`.  With two or more
feature rows PCA succeeds, and its floating-point `scatter_data` output is
visualization data consulted by no claim. -/
def getPeakActivityHours (dbscanLabels : List (ℕ × ℕ) → List ℤ)
    (parsedDates : List (Option ℕ)) : PeakOutcome :=
  if parsedDates.isEmpty then .emptyResult
  else
    let hours := parsedDates.filterMap id
    if hours.length < 2 then .insufficientData
    else
      let X := (uniqueFirst hours).map fun h => (h, hours.count h)
      if X.length < 2 then .emptyResult
      else
        let labels := dbscanLabels X
        .clustered (buildPeakRanges X labels) hours.length X.length
          (uniqueFirst (labels.filter fun l => decide (l ≠ -1))).length
          (labels.count (-1))

/-- Category name at position `i` of the emotion lexicon enumeration
(joy, anger, sadness, fear, surprise, disgust). -/
def emotionCategoryName (i : ℕ) : String :=
  (emotionLexicons.getD i ("", [])).1

/-- Lexicon score of the category at position `i` for the given text, as
computed inside `predict_emotion`. -/
def emotionCategoryScore (t : String) (i : ℕ) : ℕ :=
  emotionScore (t.data.map Char.toLower) (emotionLexicons.getD i ("", [])).2

/-- `s` contains four consecutive occurrences of the character `c`. -/
def hasRun4At (c : Char) : List Char → Bool
  | a :: b :: d :: e :: rest =>
    (a = c && b = c && d = c && e = c) || hasRun4At c (b :: d :: e :: rest)
  | _ => false

/-- A token as produced by the full sentiment normalization: nonempty,
lowercase word characters only, longer than 2, not a stopword, and without
4 consecutive equal characters. -/
def GoodToken (w : List Char) : Prop :=
  w ≠ [] ∧ (∀ c ∈ w, isWordChar c = true ∧ c.toLower = c) ∧
    2 < w.length ∧ w ∉ stopwordsIdChars ∧ ∀ c, hasRun4At c w = false

/-- Strings in the normal form produced by the sentiment normalization:
a single-space join of good tokens. -/
def NormalForm (s : List Char) : Prop :=
  ∃ ts, s = pyJoin ts ∧ ∀ w ∈ ts, GoodToken w

-- ## Generic lemmas about the character-level scanners

theorem mem_of_isPrefixOf {k s : List Char} (h : k.isPrefixOf s = true) :
    ∀ c ∈ k, c ∈ s := by
  induction k generalizing s with
  | nil => intro c hc; cases hc
  | cons a as ih =>
    cases s with
    | nil => simp [List.isPrefixOf] at h
    | cons b bs =>
      simp only [List.isPrefixOf, Bool.and_eq_true, beq_iff_eq] at h
      intro c hc
      rcases List.mem_cons.mp hc with rfl | hc
      · exact h.1 ▸ List.mem_cons_self _ _
      · exact List.mem_cons_of_mem _ (ih h.2 c hc)

theorem mem_of_strContains {k s : List Char} (h : strContains k s = true) :
    ∀ c ∈ k, c ∈ s := by
  induction s with
  | nil =>
    simp only [strContains] at h
    intro c hc
    exact absurd hc (by cases k with
      | nil => simp
      | cons a as => simp [List.isPrefixOf] at h)
  | cons b bs ih =>
    simp only [strContains, Bool.or_eq_true] at h
    rcases h with h | h
    · exact mem_of_isPrefixOf h
    · intro c hc; exact List.mem_cons_of_mem _ (ih h c hc)

theorem replaceFuel_id {p : Char → Bool} {old new s : List Char} {f : ℕ}
    (hs : ∀ c ∈ s, p c = true) (hk : ∃ c ∈ old, p c = false) :
    replaceFuel old new f s = s := by
  induction f generalizing s with
  | zero => cases s <;> rfl
  | succ f ih =>
    cases s with
    | nil => rfl
    | cons c rest =>
      rw [replaceFuel, if_neg, ih fun c hc => hs c (List.mem_cons_of_mem _ hc)]
      intro hpre
      obtain ⟨d, hd, hdp⟩ := hk
      have := hs d (mem_of_isPrefixOf hpre d hd)
      rw [this] at hdp
      cases hdp

theorem pyReplace_id {p : Char → Bool} {old new s : List Char}
    (hs : ∀ c ∈ s, p c = true) (hk : ∃ c ∈ old, p c = false) :
    pyReplace old new s = s := by
  unfold pyReplace
  split
  · rfl
  · exact replaceFuel_id hs hk

theorem stripHttpFuel_id {cls : Char → Bool} {f : ℕ} {s : List Char}
    (h : ':' ∉ s) : stripHttpFuel cls f s = s := by
  induction f generalizing s with
  | zero => cases s <;> rfl
  | succ f ih =>
    cases s with
    | nil => rfl
    | cons c rest =>
      rw [stripHttpFuel, if_neg, if_neg]
      · exact congrArg (c :: ·)
          (ih fun hm => h (List.mem_cons_of_mem _ hm))
      · intro hand
        simp only [Bool.and_eq_true] at hand
        exact h (mem_of_isPrefixOf hand.1 ':' (by decide))
      · intro hand
        simp only [Bool.and_eq_true] at hand
        exact h (mem_of_isPrefixOf hand.1 ':' (by decide))

theorem stripWwwFuel_id {cls : Char → Bool} {f : ℕ} {s : List Char}
    (h : '.' ∉ s) : stripWwwFuel cls f s = s := by
  induction f generalizing s with
  | zero => cases s <;> rfl
  | succ f ih =>
    cases s with
    | nil => rfl
    | cons c rest =>
      rw [stripWwwFuel, if_neg]
      · exact congrArg (c :: ·)
          (ih fun hm => h (List.mem_cons_of_mem _ hm))
      · intro hand
        simp only [Bool.and_eq_true] at hand
        exact h (mem_of_isPrefixOf hand.1 '.' (by decide))

theorem stripMentionsFuel_id {f : ℕ} {s : List Char}
    (h : '@' ∉ s) : stripMentionsFuel f s = s := by
  induction f generalizing s with
  | zero => cases s <;> rfl
  | succ f ih =>
    cases s with
    | nil => rfl
    | cons c rest =>
      rw [stripMentionsFuel, if_neg]
      · exact congrArg (c :: ·)
          (ih fun hm => h (List.mem_cons_of_mem _ hm))
      · intro hand
        have : c = '@' := by
          simp only [Bool.and_eq_true] at hand
          simpa using hand.1
        exact h (this ▸ List.mem_cons_self _ _)

theorem procHashtagsFuel_id {f : ℕ} {s : List Char}
    (h : '#' ∉ s) : procHashtagsFuel f s = s := by
  induction f generalizing s with
  | zero => cases s <;> rfl
  | succ f ih =>
    cases s with
    | nil => rfl
    | cons c rest =>
      rw [procHashtagsFuel, if_neg]
      · exact congrArg (c :: ·)
          (ih fun hm => h (List.mem_cons_of_mem _ hm))
      · intro hand
        have : c = '#' := by
          simp only [Bool.and_eq_true] at hand
          simpa using hand.1
        exact h (this ▸ List.mem_cons_self _ _)

theorem stripEmojiRunsFuel_id {f : ℕ} {s : List Char}
    (h : ∀ c ∈ s, inEmojiRange c = false) : stripEmojiRunsFuel f s = s := by
  induction f generalizing s with
  | zero => cases s <;> rfl
  | succ f ih =>
    cases s with
    | nil => rfl
    | cons c rest =>
      rw [stripEmojiRunsFuel, if_neg]
      · exact congrArg (c :: ·)
          (ih fun d hm => h d (List.mem_cons_of_mem _ hm))
      · simp [h c (List.mem_cons_self _ _)]

-- ## hasRun4At toolkit

theorem h4_mono_cons {c a : Char} {t : List Char}
    (h : hasRun4At c t = true) : hasRun4At c (a :: t) = true := by
  match t with
  | [] => simp [hasRun4At] at h
  | [x] => simp [hasRun4At] at h
  | [x, y] => simp [hasRun4At] at h
  | [x, y, z] => simp [hasRun4At] at h
  | x :: y :: z :: w :: r =>
    rw [hasRun4At]
    rw [h]
    simp

theorem h4_tail {c a : Char} {t : List Char}
    (h : hasRun4At c (a :: t) = false) : hasRun4At c t = false := by
  by_contra hne
  rw [h4_mono_cons (Bool.not_eq_false _ ▸ Bool.of_not_eq_false hne)] at h
  cases h

theorem h4_cons_ne {c a : Char} {t : List Char} (hne : a ≠ c) :
    hasRun4At c (a :: t) = hasRun4At c t := by
  match t with
  | [] => rfl
  | [x] => rfl
  | [x, y] => rfl
  | x :: y :: z :: r =>
    rw [hasRun4At]
    simp [hne]

theorem h4_append_left {c : Char} {x y : List Char}
    (h : hasRun4At c y = true) : hasRun4At c (x ++ y) = true := by
  induction x with
  | nil => simpa
  | cons a t ih => exact h4_mono_cons ih

theorem h4_head4 {c : Char} {r : List Char} :
    hasRun4At c (c :: c :: c :: c :: r) = true := by
  rw [hasRun4At]
  simp

theorem h4_cons_elim {c a : Char} {t : List Char}
    (h : hasRun4At c (a :: t) = true) :
    (a = c ∧ t.take 3 = [c, c, c]) ∨ hasRun4At c t = true := by
  match t with
  | [] => simp [hasRun4At] at h
  | [x] => simp [hasRun4At] at h
  | [x, y] => simp [hasRun4At] at h
  | x :: y :: z :: r =>
    rw [hasRun4At] at h
    simp only [Bool.or_eq_true] at h
    rcases h with h | h
    · simp only [Bool.and_eq_true, decide_eq_true_eq] at h
      exact Or.inl ⟨h.1.1.1, by simp [h.1.1.2, h.1.2, h.2]⟩
    · exact Or.inr h

theorem h4_append {c : Char} {x y : List Char}
    (h : hasRun4At c (x ++ y) = true) :
    hasRun4At c x = true ∨ hasRun4At c y = true ∨
      (x.getLast? = some c ∧ y.head? = some c) := by
  induction x with
  | nil => exact Or.inr (Or.inl (by simpa using h))
  | cons a x ih =>
    rcases h4_cons_elim (by simpa using h) with ⟨rfl, htake⟩ | hrec
    · match x, htake with
      | [], htake =>
        match y, htake with
        | e1 :: e2 :: e3 :: y, htake =>
          simp only [List.nil_append, List.take, List.cons.injEq] at htake
          exact Or.inr (Or.inr ⟨rfl, by simp [htake.1]⟩)
      | [b], htake =>
        match y, htake with
        | e1 :: e2 :: y, htake =>
          simp only [List.cons_append, List.nil_append, List.take,
            List.cons.injEq] at htake
          refine Or.inr (Or.inr ⟨?_, ?_⟩)
          · simp [htake.1]
          · simp [htake.2.1]
      | [b, d], htake =>
        match y, htake with
        | e1 :: y, htake =>
          simp only [List.cons_append, List.nil_append, List.take,
            List.cons.injEq] at htake
          refine Or.inr (Or.inr ⟨?_, ?_⟩)
          · simp [htake.2.1]
          · simp [htake.2.2.1]
      | b :: d :: e :: r, htake =>
        simp only [List.cons_append, List.take, List.cons.injEq] at htake
        obtain ⟨rfl, rfl, rfl, -⟩ := htake
        exact Or.inl h4_head4
    · rcases ih hrec with hx | hy | ⟨hlast, hhead⟩
      · exact Or.inl (h4_mono_cons hx)
      · exact Or.inr (Or.inl hy)
      · refine Or.inr (Or.inr ⟨?_, hhead⟩)
        cases x with
        | nil => simp at hlast
        | cons b x => simpa [List.getLast?_cons_cons] using hlast

theorem h4_block1 {c : Char} {O : List Char} (hh : O.head? ≠ some c)
    (h4 : hasRun4At c O = false) : hasRun4At c (c :: O) = false := by
  by_contra hne
  replace hne := Bool.of_not_eq_false hne
  rcases h4_cons_elim hne with ⟨-, htake⟩ | hrec
  · match O, htake with
    | e1 :: O, htake =>
      simp only [List.take, List.cons.injEq] at htake
      exact hh (by simp [htake.1])
  · rw [hrec] at h4; cases h4

theorem h4_block2 {c : Char} {O : List Char} (hh : O.head? ≠ some c)
    (h4 : hasRun4At c O = false) : hasRun4At c (c :: c :: O) = false := by
  by_contra hne
  replace hne := Bool.of_not_eq_false hne
  rcases h4_cons_elim hne with ⟨-, htake⟩ | hrec
  · match O, htake with
    | e1 :: O, htake =>
      simp only [List.take, List.cons.injEq] at htake
      exact hh (by simp [htake.2.1])
  · rw [h4_block1 hh h4] at hrec; cases hrec

theorem h4_block3 {c : Char} {O : List Char} (hh : O.head? ≠ some c)
    (h4 : hasRun4At c O = false) : hasRun4At c (c :: c :: c :: O) = false := by
  by_contra hne
  replace hne := Bool.of_not_eq_false hne
  rcases h4_cons_elim hne with ⟨-, htake⟩ | hrec
  · match O, htake with
    | e1 :: O, htake =>
      simp only [List.take, List.cons.injEq] at htake
      exact hh (by simp [htake.2.2.1])
  · rw [h4_block2 hh h4] at hrec; cases hrec

theorem h4_append_allne {c : Char} {A O : List Char}
    (hA : ∀ a ∈ A, a ≠ c) : hasRun4At c (A ++ O) = hasRun4At c O := by
  induction A with
  | nil => rfl
  | cons a A ih =>
    rw [List.cons_append, h4_cons_ne (hA a (List.mem_cons_self _ _)),
      ih fun a ha => hA a (List.mem_cons_of_mem _ ha)]

theorem h4_dropWhile {c : Char} {p : Char → Bool} {l : List Char}
    (h : hasRun4At c l = false) : hasRun4At c (l.dropWhile p) = false := by
  by_contra hne
  replace hne := Bool.of_not_eq_false hne
  have := h4_append_left (x := l.takeWhile p) hne
  rw [List.takeWhile_append_dropWhile, h] at this
  cases this

theorem dropWhile_head_false {p : Char → Bool} {l : List Char} {a : Char}
    (h : (l.dropWhile p).head? = some a) : p a = false := by
  induction l with
  | nil => simp [List.dropWhile] at h
  | cons b t ih =>
    by_cases hb : p b
    · simp only [List.dropWhile, hb] at h
      exact ih h
    · simp only [List.dropWhile, Bool.eq_false_iff.mpr hb] at h
      simp only [List.head?_cons, Option.some.injEq] at h
      subst h
      exact Bool.eq_false_iff.mpr hb

theorem mem_takeWhile_eq {c a : Char} {l : List Char}
    (h : a ∈ l.takeWhile (· = c)) : a = c := by
  simpa using List.mem_takeWhile_imp h

theorem takeWhile3_h4 {c : Char} {rest : List Char}
    (h : 3 ≤ (rest.takeWhile (· = c)).length) : hasRun4At c (c :: rest) = true := by
  match htw : rest.takeWhile (· = c), h with
  | a :: b :: d :: r, _ =>
    have ha : a = c := mem_takeWhile_eq (l := rest) (by rw [htw]; simp)
    have hb : b = c := mem_takeWhile_eq (l := rest) (by rw [htw]; simp)
    have hd : d = c := mem_takeWhile_eq (l := rest) (by rw [htw]; simp)
    have htw2 : rest.takeWhile (· = c) = c :: c :: c :: r := by
      rw [htw, ha, hb, hd]
    conv_lhs =>
      rw [← List.takeWhile_append_dropWhile (p := (· = c)) (l := rest), htw2]
    rw [List.cons_append, List.cons_append, List.cons_append]
    exact h4_head4

theorem collapseRunsFuel_head? {f : ℕ} {s : List Char} :
    (collapseRunsFuel f s).head? = s.head? := by
  cases f with
  | zero => cases s <;> rfl
  | succ f =>
    cases s with
    | nil => rfl
    | cons c rest =>
      rw [collapseRunsFuel]
      by_cases hc : c = '\n'
      · rw [if_pos hc]; rfl
      · rw [if_neg hc]
        dsimp only
        by_cases h4 : 4 ≤ (rest.takeWhile (· = c)).length + 1
        · rw [if_pos h4]; rfl
        · rw [if_neg h4]; rfl

theorem collapseRuns_no4 {c : Char} (hc : c ≠ '\n') :
    ∀ f s, s.length ≤ f → hasRun4At c (collapseRunsFuel f s) = false := by
  intro f
  induction f with
  | zero =>
    intro s hs
    have : s = [] := List.length_eq_zero.mp (Nat.le_zero.mp hs)
    subst this; rfl
  | succ f ih =>
    intro s hs
    cases s with
    | nil => rfl
    | cons x rest =>
      rw [collapseRunsFuel]
      have hlen : rest.length ≤ f := Nat.succ_le_succ_iff.mp hs
      by_cases hx : x = '\n'
      · rw [if_pos hx]
        have hxc : x ≠ c := by rw [hx]; exact fun h => hc h.symm
        rw [h4_cons_ne hxc]
        exact ih rest hlen
      · rw [if_neg hx]
        dsimp only
        have hdrop : (rest.dropWhile (· = x)).length ≤ f :=
          le_trans (List.dropWhile_sublist _).length_le hlen
        have hO4 : hasRun4At c (collapseRunsFuel f (rest.dropWhile (· = x))) = false :=
          ih _ hdrop
        by_cases hcx : c = x
        · subst hcx
          have hOh : (collapseRunsFuel f (rest.dropWhile (· = c))).head? ≠ some c := by
            rw [collapseRunsFuel_head?]
            intro hsome
            have := dropWhile_head_false hsome
            simp at this
          by_cases hrun : 4 ≤ (rest.takeWhile (· = c)).length + 1
          · rw [if_pos hrun]
            exact h4_block2 hOh hO4
          · rw [if_neg hrun]
            have hr : ∀ a ∈ rest.takeWhile (· = c), a = c :=
              fun a ha => mem_takeWhile_eq ha
            have hrl : (rest.takeWhile (· = c)).length ≤ 2 := by omega
            match hw : rest.takeWhile (· = c), hrl with
            | [], _ =>
              rw [List.cons_append, List.nil_append]
              exact h4_block1 hOh hO4
            | [a1], _ =>
              have ha1 : a1 = c := hr a1 (by rw [hw]; exact List.mem_cons_self _ _)
              subst ha1
              rw [List.cons_append, List.cons_append, List.nil_append]
              exact h4_block2 hOh hO4
            | [a1, a2], _ =>
              have ha1 : a1 = c := hr a1 (by rw [hw]; simp)
              have ha2 : a2 = c := hr a2 (by rw [hw]; simp)
              subst ha1; subst ha2
              rw [List.cons_append, List.cons_append, List.cons_append,
                List.nil_append]
              exact h4_block3 hOh hO4
        · have hxc : x ≠ c := fun h => hcx h.symm
          have hA : ∀ a ∈ (if 4 ≤ (rest.takeWhile (· = x)).length + 1
              then [x, x] else x :: rest.takeWhile (· = x)), a ≠ c := by
            intro a ha
            by_cases hrun : 4 ≤ (rest.takeWhile (· = x)).length + 1
            · rw [if_pos hrun] at ha
              rcases List.mem_cons.mp ha with rfl | ha
              · exact hxc
              · simp only [List.mem_singleton] at ha; subst ha; exact hxc
            · rw [if_neg hrun] at ha
              rcases List.mem_cons.mp ha with rfl | ha
              · exact hxc
              · rw [mem_takeWhile_eq ha]; exact hxc
          rw [h4_append_allne hA]
          exact ih _ hdrop

theorem collapseRunsFuel_id {f : ℕ} {s : List Char}
    (h : ∀ c, c ≠ '\n' → hasRun4At c s = false) :
    collapseRunsFuel f s = s := by
  induction f generalizing s with
  | zero => cases s <;> rfl
  | succ f ih =>
    cases s with
    | nil => rfl
    | cons c rest =>
      rw [collapseRunsFuel]
      have htail : ∀ d, d ≠ '\n' → hasRun4At d rest = false :=
        fun d hd => h4_tail (h d hd)
      by_cases hc : c = '\n'
      · rw [if_pos hc]
        exact congrArg (c :: ·) (ih htail)
      · rw [if_neg hc]
        have hrun : ¬ 4 ≤ (rest.takeWhile (· = c)).length + 1 := by
          intro hge
          have h3 : 3 ≤ (rest.takeWhile (· = c)).length := by omega
          have htr := takeWhile3_h4 h3
          have hf := h c hc
          rw [htr] at hf
          cases hf
        dsimp only
        rw [if_neg hrun]
        have hdrop : collapseRunsFuel f (rest.dropWhile (· = c)) =
            rest.dropWhile (· = c) :=
          ih fun d hd => h4_dropWhile (htail d hd)
        rw [hdrop]
        rw [List.cons_append, List.takeWhile_append_dropWhile]

-- ## pyJoin structure lemmas

theorem getLast?_mem_self {l : List Char} {a : Char} (h : l.getLast? = some a) :
    a ∈ l := by
  obtain ⟨hne, rfl⟩ := List.mem_getLast?_eq_getLast (by rw [h]; rfl)
  exact List.getLast_mem hne

theorem pyJoin_cons {w : List Char} {ws : List (List Char)} (h : ws ≠ []) :
    pyJoin (w :: ws) = w ++ ' ' :: pyJoin ws := by
  cases ws with
  | nil => exact absurd rfl h
  | cons w2 ws2 => rfl

theorem pyJoin_ne_nil {ts : List (List Char)} (hts : ts ≠ [])
    (h : ∀ u ∈ ts, u ≠ []) : pyJoin ts ≠ [] := by
  cases ts with
  | nil => exact absurd rfl hts
  | cons w ws =>
    cases ws with
    | nil => exact h w (List.mem_cons_self _ _)
    | cons w2 ws2 =>
      rw [pyJoin_cons (by simp)]
      cases hw : w with
      | nil => exact absurd hw (h w (List.mem_cons_self _ _))
      | cons c cs => simp

theorem pyJoin_head? {w : List Char} {ws : List (List Char)} (hw : w ≠ []) :
    (pyJoin (w :: ws)).head? = w.head? := by
  cases ws with
  | nil => rfl
  | cons w2 ws2 =>
    rw [pyJoin_cons (by simp)]
    cases w with
    | nil => exact absurd rfl hw
    | cons c cs => rfl

theorem pyJoin_mem {c : Char} {ts : List (List Char)} (h : c ∈ pyJoin ts) :
    c = ' ' ∨ ∃ w ∈ ts, c ∈ w := by
  induction ts with
  | nil => cases h
  | cons w ws ih =>
    cases ws with
    | nil => exact Or.inr ⟨w, List.mem_cons_self _ _, h⟩
    | cons w2 ws2 =>
      rw [pyJoin_cons (by simp)] at h
      rcases List.mem_append.mp h with h | h
      · exact Or.inr ⟨w, List.mem_cons_self _ _, h⟩
      · rcases List.mem_cons.mp h with rfl | h
        · exact Or.inl rfl
        · rcases ih h with h | ⟨u, hu, hc⟩
          · exact Or.inl h
          · exact Or.inr ⟨u, List.mem_cons_of_mem _ hu, hc⟩

theorem pyJoin_getLast? {ts : List (List Char)} (h : ∀ u ∈ ts, u ≠ [])
    {a : Char} (hl : (pyJoin ts).getLast? = some a) : ∃ w ∈ ts, a ∈ w := by
  induction ts with
  | nil => cases hl
  | cons w ws ih =>
    cases ws with
    | nil =>
      exact ⟨w, List.mem_cons_self _ _, getLast?_mem_self hl⟩
    | cons w2 ws2 =>
      rw [pyJoin_cons (by simp), List.getLast?_append] at hl
      have hJ : pyJoin (w2 :: ws2) ≠ [] :=
        pyJoin_ne_nil (by simp) fun u hu => h u (List.mem_cons_of_mem _ hu)
      have : (' ' :: pyJoin (w2 :: ws2)).getLast? = (pyJoin (w2 :: ws2)).getLast? := by
        have : ' ' :: pyJoin (w2 :: ws2) = [' '] ++ pyJoin (w2 :: ws2) := rfl
        rw [this, List.getLast?_append]
        cases hJe : (pyJoin (w2 :: ws2)).getLast? with
        | none =>
          exact absurd (List.getLast?_eq_none_iff.mp hJe) hJ
        | some b => rfl
      rw [this] at hl
      cases hJe : (pyJoin (w2 :: ws2)).getLast? with
      | none => exact absurd (List.getLast?_eq_none_iff.mp hJe) hJ
      | some b =>
        rw [hJe] at hl
        simp only [Option.or_some, Option.some.injEq] at hl
        subst hl
        obtain ⟨u, hu, hb⟩ := ih (fun u hu => h u (List.mem_cons_of_mem _ hu)) hJe
        exact ⟨u, List.mem_cons_of_mem _ hu, hb⟩

theorem h4_join {ts : List (List Char)}
    (htok : ∀ w ∈ ts, w ≠ [] ∧ (∀ c ∈ w, isWordChar c = true) ∧
      ∀ c, hasRun4At c w = false) :
    ∀ c, hasRun4At c (pyJoin ts) = false := by
  induction ts with
  | nil => intro c; rfl
  | cons w ws ih =>
    intro c
    cases ws with
    | nil => exact (htok w (List.mem_cons_self _ _)).2.2 c
    | cons w2 ws2 =>
      rw [pyJoin_cons (by simp)]
      by_contra hne
      replace hne := Bool.of_not_eq_false hne
      have hw := htok w (List.mem_cons_self _ _)
      have hIH := ih fun u hu => htok u (List.mem_cons_of_mem _ hu)
      rcases h4_append hne with hx | hy | ⟨hlast, hhead⟩
      · rw [hw.2.2 c] at hx; cases hx
      · by_cases hc : c = ' '
        · subst hc
          rcases h4_cons_elim hy with ⟨-, htake⟩ | hrec
          · have hw2 := htok w2 (List.mem_cons_of_mem _ (List.mem_cons_self _ _))
            have hh : (pyJoin (w2 :: ws2)).head? = w2.head? := pyJoin_head? hw2.1
            match hw2v : w2, htake, hh with
            | c2 :: w2t, htake, hh =>
              match hJ : pyJoin ((c2 :: w2t) :: ws2), htake, hh with
              | j1 :: jrest, htake, hh =>
                simp only [List.take, List.cons.injEq, List.head?_cons,
                  Option.some.injEq] at htake hh
                have hc2 : isWordChar c2 = true := by
                  have := hw2.2.1 c2
                  simp only [hw2v] at this ⊢
                  exact this (List.mem_cons_self _ _)
                rw [← hh, htake.1] at hc2
                simp [isWordChar] at hc2
          · rw [hIH ' '] at hrec; cases hrec
        · rw [h4_cons_ne (fun h => hc h.symm : ' ' ≠ c)] at hy
          rw [hIH c] at hy; cases hy
      · simp only [List.head?_cons, Option.some.injEq] at hhead
        subst hhead
        have := hw.2.1 ' ' (getLast?_mem_self hlast)
        simp [isWordChar] at this

-- ## Character class facts

theorem toLower_idem (c : Char) : c.toLower.toLower = c.toLower := by
  unfold Char.toLower
  by_cases h : c.toNat ≥ 65 ∧ c.toNat ≤ 90
  · rw [if_pos h]
    have hv : (c.toNat + 32).isValidChar := by
      unfold Nat.isValidChar
      omega
    have hval : (Char.ofNat (c.toNat + 32)).toNat = c.toNat + 32 := by
      unfold Char.ofNat
      rw [dif_pos hv]
      rfl
    rw [if_neg (by rw [hval]; omega)]
  · rw [if_neg h, if_neg h]

theorem toLower_of_not_upper {c : Char} (h : ¬ (c.toNat ≥ 65 ∧ c.toNat ≤ 90)) :
    c.toLower = c := by
  unfold Char.toLower
  rw [if_neg h]

theorem upper_bounds {c : Char} (h : c.isUpper = true) :
    65 ≤ c.toNat ∧ c.toNat ≤ 90 := by
  simp only [Char.isUpper, Bool.and_eq_true, decide_eq_true_eq] at h
  refine ⟨?_, ?_⟩ <;>
    [skip; skip] <;>
    first
      | (have h2 := BitVec.le_def.mp (UInt32.le_def.mp h.1)
         simpa [Char.toNat, UInt32.toNat] using h2)
      | (have h2 := BitVec.le_def.mp (UInt32.le_def.mp h.2)
         simpa [Char.toNat, UInt32.toNat] using h2)

theorem lower_bounds {c : Char} (h : c.isLower = true) :
    97 ≤ c.toNat ∧ c.toNat ≤ 122 := by
  simp only [Char.isLower, Bool.and_eq_true, decide_eq_true_eq] at h
  refine ⟨?_, ?_⟩
  · have h2 := BitVec.le_def.mp (UInt32.le_def.mp h.1)
    simpa [Char.toNat, UInt32.toNat] using h2
  · have h2 := BitVec.le_def.mp (UInt32.le_def.mp h.2)
    simpa [Char.toNat, UInt32.toNat] using h2

theorem digit_bounds {c : Char} (h : c.isDigit = true) :
    48 ≤ c.toNat ∧ c.toNat ≤ 57 := by
  simp only [Char.isDigit, Bool.and_eq_true, decide_eq_true_eq] at h
  refine ⟨?_, ?_⟩
  · have h2 := BitVec.le_def.mp (UInt32.le_def.mp h.1)
    simpa [Char.toNat, UInt32.toNat] using h2
  · have h2 := BitVec.le_def.mp (UInt32.le_def.mp h.2)
    simpa [Char.toNat, UInt32.toNat] using h2

theorem wordChar_toNat_bounds {c : Char} (h : isWordChar c = true) :
    48 ≤ c.toNat ∧ c.toNat ≤ 122 := by
  simp only [isWordChar, Char.isAlpha, Bool.or_eq_true, decide_eq_true_eq] at h
  rcases h with ((h | h) | h) | h
  · have := upper_bounds h; omega
  · have := lower_bounds h; omega
  · have := digit_bounds h; omega
  · subst h; decide

theorem space_cases {c : Char} (h : isSpaceChar c = true) :
    c = ' ' ∨ c = '\t' ∨ c = '\x0d' ∨ c = '\n' := by
  simp only [isSpaceChar, Char.isWhitespace, Bool.or_eq_true,
    decide_eq_true_eq] at h
  tauto

theorem space_toNat_lt {c : Char} (h : isSpaceChar c = true) : c.toNat < 48 := by
  rcases space_cases h with rfl | rfl | rfl | rfl <;> decide

theorem toLower_space {c : Char} (h : isSpaceChar c = true) : c.toLower = c :=
  toLower_of_not_upper (by have := space_toNat_lt h; omega)

theorem wordOrSpace_toNat_le {c : Char} (h : isWordOrSpace c = true) :
    c.toNat ≤ 122 := by
  simp only [isWordOrSpace, Bool.or_eq_true] at h
  rcases h with h | h
  · exact (wordChar_toNat_bounds h).2
  · have := space_toNat_lt h; omega

theorem wordOrSpace_not_emoji {c : Char} (h : isWordOrSpace c = true) :
    inEmojiRange c = false := by
  have hle := wordOrSpace_toNat_le h
  simp only [inEmojiRange]
  simp only [Bool.or_eq_false_iff, Bool.and_eq_false_iff]
  refine ⟨⟨⟨⟨⟨?_, ?_⟩, ?_⟩, ?_⟩, ?_⟩, ?_⟩ <;>
    (left; simp only [decide_eq_false_iff_not, not_le]; omega)

theorem wordChar_ne_space {c : Char} (h : isWordChar c = true) : c ≠ ' ' := by
  intro hc
  subst hc
  simp [isWordChar] at h

theorem wordChar_not_space {c : Char} (h : isWordChar c = true) :
    isSpaceChar c = false := by
  by_contra hs
  replace hs := Bool.of_not_eq_false hs
  have h1 := (wordChar_toNat_bounds h).1
  have h2 := space_toNat_lt hs
  omega

-- ## collapseWs / pyStrip / splitWs on joined tokens

theorem collapseWsFuel_nil {f : ℕ} : collapseWsFuel f [] = [] := by
  cases f <;> rfl

theorem dropWhile_of_head_false {p : Char → Bool} {l : List Char}
    (h : ∀ a, l.head? = some a → p a = false) : l.dropWhile p = l := by
  cases l with
  | nil => rfl
  | cons a t =>
    have := h a rfl
    simp [List.dropWhile, this]

theorem collapseWs_token_id {w rest : List Char}
    (hw : ∀ c ∈ w, isSpaceChar c = false)
    (hrest : ∀ f, collapseWsFuel f rest = rest) :
    ∀ f, collapseWsFuel f (w ++ rest) = w ++ rest := by
  induction w with
  | nil => simpa using hrest
  | cons c w2 ih =>
    intro f
    cases f with
    | zero => rfl
    | succ f =>
      rw [List.cons_append, collapseWsFuel,
        if_neg (by simp [hw c (List.mem_cons_self _ _)])]
      exact congrArg (c :: ·)
        (ih (fun d hd => hw d (List.mem_cons_of_mem _ hd)) f)

theorem collapseWs_join_id {ts : List (List Char)}
    (htok : ∀ w ∈ ts, w ≠ [] ∧ ∀ c ∈ w, isSpaceChar c = false) :
    ∀ f, collapseWsFuel f (pyJoin ts) = pyJoin ts := by
  induction ts with
  | nil => intro f; exact collapseWsFuel_nil
  | cons w ws ih =>
    cases ws with
    | nil =>
      intro f
      have := @collapseWs_token_id w []
        (fun c hc => (htok w (List.mem_cons_self _ _)).2 c hc)
        (fun f => collapseWsFuel_nil) f
      simpa using this
    | cons w2 ws2 =>
      rw [pyJoin_cons (by simp)]
      refine collapseWs_token_id
        (fun c hc => (htok w (List.mem_cons_self _ _)).2 c hc) ?_
      intro f
      cases f with
      | zero => rfl
      | succ f =>
        rw [collapseWsFuel, if_pos (by decide)]
        have hhead : ∀ a, (pyJoin (w2 :: ws2)).head? = some a →
            isSpaceChar a = false := by
          intro a ha
          have hw2 := htok w2 (List.mem_cons_of_mem _ (List.mem_cons_self _ _))
          rw [pyJoin_head? hw2.1] at ha
          cases w2 with
          | nil => exact absurd rfl hw2.1
          | cons c2 t2 =>
            simp only [List.head?_cons, Option.some.injEq] at ha
            exact ha ▸ hw2.2 c2 (List.mem_cons_self _ _)
        rw [dropWhile_of_head_false hhead]
        exact congrArg (' ' :: ·)
          (ih (fun u hu => htok u (List.mem_cons_of_mem _ hu)) f)

theorem pyStrip_join_id {ts : List (List Char)}
    (htok : ∀ w ∈ ts, w ≠ [] ∧ ∀ c ∈ w, isSpaceChar c = false) :
    pyStrip (pyJoin ts) = pyJoin ts := by
  cases ts with
  | nil => rfl
  | cons w ws =>
    unfold pyStrip
    have hhead : ∀ a, (pyJoin (w :: ws)).head? = some a →
        isSpaceChar a = false := by
      intro a ha
      have hw := htok w (List.mem_cons_self _ _)
      rw [pyJoin_head? hw.1] at ha
      cases w with
      | nil => exact absurd rfl hw.1
      | cons c t =>
        simp only [List.head?_cons, Option.some.injEq] at ha
        exact ha ▸ hw.2 c (List.mem_cons_self _ _)
    rw [dropWhile_of_head_false hhead]
    have hlast : ∀ a, (pyJoin (w :: ws)).reverse.head? = some a →
        isSpaceChar a = false := by
      intro a ha
      rw [List.head?_reverse] at ha
      obtain ⟨u, hu, hau⟩ := pyJoin_getLast? (fun u hu => (htok u hu).1) ha
      exact (htok u hu).2 a hau
    rw [dropWhile_of_head_false hlast, List.reverse_reverse]

theorem takeWhile_append_all {p : Char → Bool} {w x : List Char}
    (hw : ∀ c ∈ w, p c = true) :
    (w ++ x).takeWhile p = w ++ x.takeWhile p := by
  induction w with
  | nil => rfl
  | cons c w2 ih =>
    rw [List.cons_append, List.takeWhile_cons, if_pos (hw c (List.mem_cons_self _ _))]
    exact congrArg (c :: ·) (ih fun d hd => hw d (List.mem_cons_of_mem _ hd))

theorem dropWhile_append_all {p : Char → Bool} {w x : List Char}
    (hw : ∀ c ∈ w, p c = true) :
    (w ++ x).dropWhile p = x.dropWhile p := by
  induction w with
  | nil => rfl
  | cons c w2 ih =>
    rw [List.cons_append, List.dropWhile_cons, if_pos (hw c (List.mem_cons_self _ _))]
    exact ih fun d hd => hw d (List.mem_cons_of_mem _ hd)

theorem splitWs_join {ts : List (List Char)}
    (htok : ∀ w ∈ ts, w ≠ [] ∧ ∀ c ∈ w, isSpaceChar c = false) :
    ∀ f, (pyJoin ts).length ≤ f → splitWsFuel f (pyJoin ts) = ts := by
  induction ts with
  | nil =>
    intro f hf
    cases f <;> rfl
  | cons w ws ih =>
    intro f hf
    have hw := htok w (List.mem_cons_self _ _)
    cases ws with
    | nil =>
      cases hwv : w with
      | nil => exact absurd hwv hw.1
      | cons c w2 =>
        subst hwv
        simp only [pyJoin, List.length_cons] at hf ⊢
        cases f with
        | zero => omega
        | succ f =>
          rw [splitWsFuel,
            if_neg (by simp [hw.2 c (List.mem_cons_self _ _)])]
          have hall : ∀ d ∈ w2, (fun x => !isSpaceChar x) d = true := by
            intro d hd
            simp [hw.2 d (List.mem_cons_of_mem _ hd)]
          have ht : w2.takeWhile (fun x => !isSpaceChar x) = w2 := by
            have := takeWhile_append_all (x := []) hall
            simpa using this
          have hd : w2.dropWhile (fun x => !isSpaceChar x) = [] := by
            have := dropWhile_append_all (x := []) hall
            simpa using this
          rw [ht, hd]
          cases f <;> rfl
    | cons ws1 ws2 =>
      rw [pyJoin_cons (by simp)] at hf ⊢
      cases hwv : w with
      | nil => exact absurd hwv hw.1
      | cons c w2 =>
        subst hwv
        rw [List.cons_append]
        simp only [List.length_cons, List.length_append] at hf
        cases f with
        | zero => omega
        | succ f =>
          rw [splitWsFuel,
            if_neg (by simp [hw.2 c (List.mem_cons_self _ _)])]
          have hall : ∀ d ∈ w2, (fun x => !isSpaceChar x) d = true := by
            intro d hd
            simp [hw.2 d (List.mem_cons_of_mem _ hd)]
          rw [takeWhile_append_all hall, dropWhile_append_all hall]
          have htw : (' ' :: pyJoin (ws1 :: ws2)).takeWhile
              (fun x => !isSpaceChar x) = [] := by
            rw [List.takeWhile_cons]
            simp [isSpaceChar]
          have hdw : (' ' :: pyJoin (ws1 :: ws2)).dropWhile
              (fun x => !isSpaceChar x) = ' ' :: pyJoin (ws1 :: ws2) := by
            rw [List.dropWhile_cons]
            simp [isSpaceChar]
          rw [htw, hdw, List.append_nil]
          simp only [List.cons.injEq, true_and]
          cases f with
          | zero =>
            exfalso
            have : (pyJoin (ws1 :: ws2)).length ≠ 0 := by
              intro h0
              exact pyJoin_ne_nil (by simp)
                (fun u hu => (htok u (List.mem_cons_of_mem _ hu)).1)
                (List.length_eq_zero.mp h0)
            omega
          | succ f =>
            rw [splitWsFuel, if_pos (by decide)]
            exact ih (fun u hu => htok u (List.mem_cons_of_mem _ hu)) f
              (by omega)

-- ## Window (contiguous substring) transfer lemmas

theorem splitWsFuel_tokens {f : ℕ} {s w : List Char}
    (h : w ∈ splitWsFuel f s) :
    w ≠ [] ∧ (∀ c ∈ w, isSpaceChar c = false) ∧ ∃ l1 l2, s = l1 ++ w ++ l2 := by
  induction f generalizing s with
  | zero => cases s <;> cases h
  | succ f ih =>
    cases s with
    | nil => cases h
    | cons c rest =>
      rw [splitWsFuel] at h
      by_cases hc : isSpaceChar c
      · rw [if_pos hc] at h
        obtain ⟨hne, hns, l1, l2, hdec⟩ := ih h
        exact ⟨hne, hns, c :: l1, l2, by rw [hdec]; rfl⟩
      · rw [if_neg hc] at h
        rcases List.mem_cons.mp h with rfl | h
        · refine ⟨by simp, ?_, [], rest.dropWhile (fun x => !isSpaceChar x), ?_⟩
          · intro d hd
            rcases List.mem_cons.mp hd with rfl | hd
            · exact Bool.eq_false_iff.mpr hc
            · have := List.mem_takeWhile_imp hd
              simpa using this
          · simp only [List.nil_append, List.cons_append, List.cons.injEq,
              true_and]
            exact (List.takeWhile_append_dropWhile _ _).symm
        · obtain ⟨hne, hns, l1, l2, hdec⟩ := ih h
          refine ⟨hne, hns,
            c :: rest.takeWhile (fun x => !isSpaceChar x) ++ l1, l2, ?_⟩
          have hr : rest = rest.takeWhile (fun x => !isSpaceChar x) ++
              rest.dropWhile (fun x => !isSpaceChar x) :=
            (List.takeWhile_append_dropWhile _ _).symm
          rw [hdec] at hr
          conv_lhs => rw [hr]
          simp only [List.cons_append, List.append_assoc]

theorem collapseWs_pre {p : List Char}
    (hp : ∀ c ∈ p, isSpaceChar c = false) :
    ∀ {f : ℕ} {s : List Char},
      (∃ t, collapseWsFuel f s = p ++ t) → ∃ t, s = p ++ t := by
  induction p with
  | nil => exact fun _ => ⟨_, rfl⟩
  | cons pc prest ih =>
    intro f s h
    obtain ⟨t, ht⟩ := h
    cases f with
    | zero =>
      have h0 : collapseWsFuel 0 s = s := by cases s <;> rfl
      rw [h0] at ht
      exact ⟨t, ht⟩
    | succ f =>
      cases s with
      | nil => rw [collapseWsFuel] at ht; cases ht
      | cons c rest =>
        rw [collapseWsFuel] at ht
        by_cases hc : isSpaceChar c
        · rw [if_pos hc] at ht
          simp only [List.cons_append, List.cons.injEq] at ht
          have := hp pc (List.mem_cons_self _ _)
          rw [← ht.1] at this
          simp [isSpaceChar] at this
        · rw [if_neg hc] at ht
          simp only [List.cons_append, List.cons.injEq] at ht
          obtain ⟨t2, ht2⟩ := ih
            (fun d hd => hp d (List.mem_cons_of_mem _ hd)) ⟨t, ht.2⟩
          exact ⟨t2, by rw [ht.1, ht2]; rfl⟩

theorem collapseWs_window {w : List Char} (hwne : w ≠ [])
    (hns : ∀ c ∈ w, isSpaceChar c = false) :
    ∀ {f : ℕ} {s l1 l2 : List Char},
      collapseWsFuel f s = l1 ++ w ++ l2 → ∃ m1 m2, s = m1 ++ w ++ m2 := by
  intro f
  induction f with
  | zero =>
    intro s l1 l2 h
    have h0 : collapseWsFuel 0 s = s := by cases s <;> rfl
    rw [h0] at h
    exact ⟨l1, l2, h⟩
  | succ f ih =>
    intro s l1 l2 h
    cases s with
    | nil =>
      rw [collapseWsFuel] at h
      rcases List.append_eq_nil.mp (h.symm ▸ rfl : l1 ++ w ++ l2 = []) with ⟨h1, -⟩
      exact absurd (List.append_eq_nil.mp h1).2 hwne
    | cons c rest =>
      rw [collapseWsFuel] at h
      by_cases hc : isSpaceChar c
      · rw [if_pos hc] at h
        cases l1 with
        | nil =>
          cases hwv : w with
          | nil => exact absurd hwv hwne
          | cons wc wrest =>
            subst hwv
            simp only [List.nil_append, List.cons_append, List.cons.injEq] at h
            have := hns wc (List.mem_cons_self _ _)
            rw [← h.1] at this
            simp [isSpaceChar] at this
        | cons a l1t =>
          simp only [List.cons_append, List.cons.injEq] at h
          obtain ⟨m1, m2, hm⟩ := ih h.2
          refine ⟨c :: rest.takeWhile isSpaceChar ++ m1, m2, ?_⟩
          have hr : rest = rest.takeWhile isSpaceChar ++
              rest.dropWhile isSpaceChar :=
            (List.takeWhile_append_dropWhile _ _).symm
          rw [hm] at hr
          conv_lhs => rw [hr]
          simp only [List.cons_append, List.append_assoc]
      · rw [if_neg hc] at h
        cases l1 with
        | nil =>
          cases hwv : w with
          | nil => exact absurd hwv hwne
          | cons wc wrest =>
            subst hwv
            simp only [List.nil_append, List.cons_append, List.cons.injEq] at h
            obtain ⟨t, ht⟩ := collapseWs_pre
              (fun d hd => hns d (List.mem_cons_of_mem _ hd)) ⟨l2, h.2⟩
            refine ⟨[], t, ?_⟩
            simp only [List.nil_append, List.cons_append, List.cons.injEq]
            exact ⟨h.1, ht⟩
        | cons a l1t =>
          simp only [List.cons_append, List.cons.injEq] at h
          obtain ⟨m1, m2, hm⟩ := ih h.2
          exact ⟨c :: m1, m2, by rw [hm]; rfl⟩

theorem pyStrip_window {s : List Char} : ∃ l1 l2, s = l1 ++ pyStrip s ++ l2 := by
  unfold pyStrip
  refine ⟨s.takeWhile isSpaceChar,
    (((s.dropWhile isSpaceChar).reverse.takeWhile isSpaceChar)).reverse, ?_⟩
  have h1 : s = s.takeWhile isSpaceChar ++ s.dropWhile isSpaceChar :=
    (List.takeWhile_append_dropWhile _ _).symm
  have h2 : (s.dropWhile isSpaceChar).reverse =
      (s.dropWhile isSpaceChar).reverse.takeWhile isSpaceChar ++
      (s.dropWhile isSpaceChar).reverse.dropWhile isSpaceChar :=
    (List.takeWhile_append_dropWhile _ _).symm
  have h3 : s.dropWhile isSpaceChar =
      ((s.dropWhile isSpaceChar).reverse.dropWhile isSpaceChar).reverse ++
      ((s.dropWhile isSpaceChar).reverse.takeWhile isSpaceChar).reverse := by
    have := congrArg List.reverse h2
    rw [List.reverse_reverse, List.reverse_append] at this
    exact this
  rw [List.append_assoc]
  rw [← h3]
  exact h1

theorem collapseRuns_chars {f : ℕ} {s : List Char} :
    ∀ a ∈ collapseRunsFuel f s, a ∈ s := by
  induction f generalizing s with
  | zero => cases s <;> exact fun a ha => ha
  | succ f ih =>
    cases s with
    | nil => exact fun a ha => ha
    | cons c rest =>
      rw [collapseRunsFuel]
      by_cases hc : c = '\n'
      · rw [if_pos hc]
        intro a ha
        rcases List.mem_cons.mp ha with rfl | ha
        · exact List.mem_cons_self _ _
        · exact List.mem_cons_of_mem _ (ih a ha)
      · rw [if_neg hc]
        dsimp only
        intro a ha
        rcases List.mem_append.mp ha with ha | ha
        · by_cases h4 : 4 ≤ (rest.takeWhile (· = c)).length + 1
          · rw [if_pos h4] at ha
            rcases List.mem_cons.mp ha with rfl | ha
            · exact List.mem_cons_self _ _
            · simp only [List.mem_singleton] at ha
              subst ha
              exact List.mem_cons_self _ _
          · rw [if_neg h4] at ha
            rcases List.mem_cons.mp ha with rfl | ha
            · exact List.mem_cons_self _ _
            · exact List.mem_cons_of_mem _
                ((List.takeWhile_sublist _).subset ha)
        · exact List.mem_cons_of_mem _
            ((List.dropWhile_sublist _).subset (ih a ha))

theorem map_window_eq {c : Char} {g : Char → Char} {t l1 l2 : List Char}
    (hg : ∀ x, g x = c → x = c)
    (h : t.map g = l1 ++ [c, c, c, c] ++ l2) :
    ∃ m1 m2, t = m1 ++ [c, c, c, c] ++ m2 := by
  obtain ⟨t1, t2, rfl, hm1, hm2⟩ := List.map_eq_append_iff.mp h
  obtain ⟨t3, t4, rfl, hm3, hm4⟩ := List.map_eq_append_iff.mp hm1
  rcases t4 with - | ⟨x1, t4⟩; · simp at hm4
  rcases t4 with - | ⟨x2, t4⟩; · simp at hm4
  rcases t4 with - | ⟨x3, t4⟩; · simp at hm4
  rcases t4 with - | ⟨x4, t4⟩; · simp at hm4
  rcases t4 with - | ⟨x5, t4⟩
  · simp only [List.map_cons, List.map_nil, List.cons.injEq, and_true] at hm4
    obtain ⟨e1, e2, e3, e4⟩ := hm4
    obtain rfl := hg x1 e1
    obtain rfl := hg x2 e2
    obtain rfl := hg x3 e3
    obtain rfl := hg x4 e4
    exact ⟨t3, t2, rfl⟩
  · simp at hm4

theorem h4_of_window {c : Char} {s l1 l2 : List Char}
    (h : s = l1 ++ [c, c, c, c] ++ l2) : hasRun4At c s = true := by
  subst h
  induction l1 with
  | nil => exact h4_head4
  | cons a t ih => exact h4_mono_cons ih

theorem h4_to_window {c : Char} {s : List Char} (h : hasRun4At c s = true) :
    ∃ l1 l2, s = l1 ++ [c, c, c, c] ++ l2 := by
  induction s with
  | nil => cases h
  | cons a t ih =>
    rcases h4_cons_elim h with ⟨rfl, htake⟩ | hrec
    · match t, htake with
      | x1 :: x2 :: x3 :: t4, htake =>
        simp only [List.take, List.cons.injEq] at htake
        obtain ⟨rfl, rfl, rfl, -⟩ := htake
        exact ⟨[], t4, rfl⟩
    · obtain ⟨m1, m2, hm⟩ := ih hrec
      exact ⟨a :: m1, m2, by rw [hm]; rfl⟩

-- ## Windows: composition and membership

theorem window_mem {s w : List Char} (h : ∃ l1 l2, s = l1 ++ w ++ l2) :
    ∀ c ∈ w, c ∈ s := by
  obtain ⟨l1, l2, rfl⟩ := h
  intro c hc
  exact List.mem_append.mpr (Or.inl (List.mem_append.mpr (Or.inr hc)))

theorem window_trans {s w u : List Char} (h1 : ∃ l1 l2, s = l1 ++ w ++ l2)
    (h2 : ∃ m1 m2, w = m1 ++ u ++ m2) : ∃ n1 n2, s = n1 ++ u ++ n2 := by
  obtain ⟨l1, l2, rfl⟩ := h1
  obtain ⟨m1, m2, rfl⟩ := h2
  exact ⟨l1 ++ m1, m2 ++ l2, by simp [List.append_assoc]⟩

-- ## specialToSpace facts

theorem specialToSpace_wordOrSpace {t : List Char} :
    ∀ c ∈ specialToSpace t, isWordOrSpace c = true := by
  intro c hc
  obtain ⟨x, -, hx⟩ := List.mem_map.mp hc
  by_cases hxs : isWordOrSpace x
  · rw [if_pos hxs] at hx
    exact hx ▸ hxs
  · rw [if_neg hxs] at hx
    subst hx
    decide

theorem specialToSpace_mem {t : List Char} {c : Char}
    (hc : c ∈ specialToSpace t) (hns : isSpaceChar c = false) :
    isWordChar c = true ∧ c ∈ t := by
  obtain ⟨x, hxt, hx⟩ := List.mem_map.mp hc
  by_cases hxs : isWordOrSpace x
  · rw [if_pos hxs] at hx
    subst hx
    simp only [isWordOrSpace, Bool.or_eq_true] at hxs
    rcases hxs with h | h
    · exact ⟨h, hxt⟩
    · rw [h] at hns; cases hns
  · rw [if_neg hxs] at hx
    subst hx
    simp [isSpaceChar] at hns

-- ## Emoji replacement fold

theorem foldl_pyReplace_id {dict : List (String × String)} {s : List Char}
    (hd : ∀ kv ∈ dict, ∃ c ∈ kv.1.data, isWordOrSpace c = false)
    (hs : ∀ c ∈ s, isWordOrSpace c = true) :
    dict.foldl (fun acc kv => pyReplace kv.1.data (' ' :: kv.2.data ++ [' ']) acc)
      s = s := by
  induction dict with
  | nil => rfl
  | cons kv rest ih =>
    rw [List.foldl_cons,
      pyReplace_id hs (hd kv (List.mem_cons_self _ _))]
    exact ih fun kv2 h2 => hd kv2 (List.mem_cons_of_mem _ h2)

-- ## The sentiment pipeline fixes NormalForm strings

theorem normalForm_token_facts {ts : List (List Char)}
    (htok : ∀ w ∈ ts, GoodToken w) :
    ∀ w ∈ ts, w ≠ [] ∧ ∀ c ∈ w, isSpaceChar c = false := by
  intro w hw
  obtain ⟨hne, hchars, -, -, -⟩ := htok w hw
  exact ⟨hne, fun c hc => wordChar_not_space (hchars c hc).1⟩

theorem normalForm_chars {s : List Char} (h : NormalForm s) :
    ∀ c ∈ s, isWordOrSpace c = true ∧ c.toLower = c := by
  obtain ⟨ts, rfl, htok⟩ := h
  intro c hc
  rcases pyJoin_mem hc with rfl | ⟨w, hw, hcw⟩
  · exact ⟨by decide, by decide⟩
  · obtain ⟨-, hchars, -, -, -⟩ := htok w hw
    exact ⟨by simp [isWordOrSpace, (hchars c hcw).1], (hchars c hcw).2⟩

theorem sentimentPipeline_id {s : List Char} (h : NormalForm s) :
    sentimentPipeline s = s := by
  obtain ⟨ts, hts, htok⟩ := h
  have hchars := normalForm_chars ⟨ts, hts, htok⟩
  have hws : ∀ c ∈ s, isWordOrSpace c = true := fun c hc => (hchars c hc).1
  have hmem : ∀ c : Char, isWordOrSpace c = false → c ∉ s := by
    intro c hcw hcs
    rw [hws c hcs] at hcw
    cases hcw
  unfold sentimentPipeline
  dsimp only
  rw [foldl_pyReplace_id (by decide) hws]
  rw [stripHttpFuel_id (hmem ':' (by decide))]
  rw [stripWwwFuel_id (hmem '.' (by decide))]
  unfold commonTail
  dsimp only
  rw [stripMentionsFuel_id (hmem '@' (by decide))]
  rw [procHashtagsFuel_id (hmem '#' (by decide))]
  rw [stripEmojiRunsFuel_id fun c hc => wordOrSpace_not_emoji (hws c hc)]
  have hlow : s.map Char.toLower = s := by
    conv_rhs => rw [← List.map_id s]
    exact List.map_congr_left fun c hc => (hchars c hc).2
  rw [hlow]
  have h4 : ∀ c, hasRun4At c s = false := by
    rw [hts]
    exact h4_join fun w hw =>
      ⟨(htok w hw).1, fun c hc => ((htok w hw).2.1 c hc).1, (htok w hw).2.2.2.2⟩
  rw [collapseRunsFuel_id fun c _ => h4 c]
  have hsp : specialToSpace s = s := by
    unfold specialToSpace
    conv_rhs => rw [← List.map_id s]
    exact List.map_congr_left fun c hc => by rw [if_pos (hws c hc)]; rfl
  rw [hsp]
  have htok2 := normalForm_token_facts htok
  rw [hts, collapseWs_join_id htok2 _, pyStrip_join_id htok2]
  unfold splitWs
  rw [splitWs_join htok2 _ le_rfl]
  have hkeep : ∀ w ∈ ts,
      (!stopwordsIdChars.contains w && 2 < w.length) = true := by
    intro w hw
    obtain ⟨-, -, hlen, hsw, -⟩ := htok w hw
    simp only [Bool.and_eq_true, Bool.not_eq_true', decide_eq_true_eq]
    exact ⟨by simpa using hsw, hlen⟩
  rw [List.filter_eq_self.mpr hkeep]

theorem sentimentPipeline_normal (s : List Char) :
    NormalForm (sentimentPipeline s) := by
  unfold sentimentPipeline commonTail
  set t3 := stripWwwFuel urlChar _ _ with ht3
  set t4 := stripMentionsFuel t3.length t3 with ht4
  set t5 := procHashtagsFuel t4.length t4 with ht5
  set t6 := stripEmojiRunsFuel t5.length t5 with ht6
  set t7 := t6.map Char.toLower with ht7
  set t8 := collapseRunsFuel t7.length t7 with ht8
  set t9 := specialToSpace t8 with ht9
  set t10 := pyStrip (collapseWsFuel t9.length t9) with ht10
  refine ⟨_, rfl, ?_⟩
  intro w hw
  obtain ⟨hwsplit, hkeep⟩ := List.mem_filter.mp hw
  simp only [Bool.and_eq_true, Bool.not_eq_true', decide_eq_true_eq] at hkeep
  obtain ⟨hne, hns, hwin10⟩ := splitWsFuel_tokens hwsplit
  have hwin9 : ∃ m1 m2, t9 = m1 ++ w ++ m2 := by
    obtain ⟨l1, l2, hdec⟩ := hwin10
    have hwincw : ∃ n1 n2, collapseWsFuel t9.length t9 = n1 ++ w ++ n2 := by
      refine window_trans (w := t10) ?_ ⟨l1, l2, hdec⟩
      rw [ht10]
      exact pyStrip_window
    obtain ⟨n1, n2, hn⟩ := hwincw
    exact collapseWs_window hne hns hn
  have hcin9 : ∀ c ∈ w, c ∈ t9 := window_mem hwin9
  have hword : ∀ c ∈ w, isWordChar c = true := by
    intro c hc
    exact (specialToSpace_mem (hcin9 c hc) (hns c hc)).1
  have hlower : ∀ c ∈ w, c.toLower = c := by
    intro c hc
    have hc8 : c ∈ t8 := (specialToSpace_mem (hcin9 c hc) (hns c hc)).2
    have hc7 : c ∈ t7 := collapseRuns_chars c hc8
    obtain ⟨y, -, hy⟩ := List.mem_map.mp hc7
    rw [← hy]
    exact toLower_idem y
  refine ⟨hne, fun c hc => ⟨hword c hc, hlower c hc⟩, hkeep.2, ?_, ?_⟩
  · intro hsw
    have := hkeep.1
    rw [(by simpa using hsw : stopwordsIdChars.contains w = true)] at this
    cases this
  · intro c
    by_contra hrun
    replace hrun := Bool.of_not_eq_false hrun
    obtain ⟨m1, m2, hm⟩ := h4_to_window hrun
    have hcw : c ∈ w := window_mem ⟨m1, m2, hm⟩ c (by simp)
    have hcword : isWordChar c = true := hword c hcw
    have hwin9c : ∃ n1 n2, t9 = n1 ++ [c, c, c, c] ++ n2 :=
      window_trans hwin9 ⟨m1, m2, hm⟩
    obtain ⟨n1, n2, hn⟩ := hwin9c
    obtain ⟨p1, p2, hp⟩ := map_window_eq
      (fun x hx => by
        by_cases hxw : isWordOrSpace x
        · rw [if_pos hxw] at hx; exact hx
        · rw [if_neg hxw] at hx
          exact absurd hx.symm (wordChar_ne_space hcword))
      (ht9 ▸ hn)
    have h48 : hasRun4At c t8 = true := h4_of_window hp
    have hnn : c ≠ '\n' := by
      intro hcn
      have := (wordChar_toNat_bounds hcword).1
      rw [hcn] at this
      revert this
      decide
    rw [collapseRuns_no4 hnn t7.length t7 le_rfl] at h48
    exact absurd h48 (by decide)

theorem sentimentPipeline_idem (s : List Char) :
    sentimentPipeline (sentimentPipeline s) = sentimentPipeline s :=
  sentimentPipeline_id (sentimentPipeline_normal s)

theorem preprocessTextSentiment_mk {pl : List Char} (h : ¬ (⟨pl⟩ : String) = "") :
    preprocessTextSentiment (some ⟨pl⟩) = ⟨sentimentPipeline pl⟩ := by
  rw [preprocessTextSentiment, if_neg h]

theorem preprocessTextSentiment_fix {pl : List Char}
    (hfix : sentimentPipeline pl = pl) :
    preprocessTextSentiment (some ⟨pl⟩) = ⟨pl⟩ := by
  rw [preprocessTextSentiment]
  by_cases hp : (⟨pl⟩ : String) = ""
  · rw [if_pos hp]
    exact hp.symm
  · rw [if_neg hp]
    show (⟨sentimentPipeline pl⟩ : String) = ⟨pl⟩
    rw [hfix]

/-- **C8.**  Text normalization is idempotent: applying
`SentimentProcessor.preprocess_text` (the normalization pipeline cited by the
spec) twice gives the same result as applying it once, for every input,
including the null (`none`) and empty-string inputs handled by its guard. -/
theorem spec_C8_normalize_idempotent (x : Option String) :
    preprocessTextSentiment (some (preprocessTextSentiment x)) =
      preprocessTextSentiment x := by
  match x with
  | none => rfl
  | some s =>
    by_cases hs : s = ""
    · subst hs; rfl
    · obtain ⟨sl⟩ := s
      rw [preprocessTextSentiment_mk hs]
      exact preprocessTextSentiment_fix (sentimentPipeline_idem sl)

theorem data_mk (pl : List Char) : (⟨pl⟩ : String).data = pl := rfl

/-- **C9.**  Text normalization is total: both embedded `preprocess_text`
functions are total Lean functions of the (possibly null) input — they
provably return a string on every input — and the `pd.isna(text) or
text == ''` guard yields the empty string on null (`none`) and empty
inputs, exactly as the claim states. -/
theorem spec_C9_normalize_total :
    preprocessTextSentiment none = "" ∧ preprocessTextSentiment (some "") = "" ∧
      preprocessTextEmotion none = "" ∧ preprocessTextEmotion (some "") = "" ∧
      ∀ x : Option String, ∃ r s : String,
        preprocessTextSentiment x = r ∧ preprocessTextEmotion x = s :=
  ⟨rfl, rfl, rfl, rfl, fun _x => ⟨_, _, rfl, rfl⟩⟩

set_option maxRecDepth 40000 in
set_option maxHeartbeats 1000000 in
/-- **C10, counterexample.**  The claim asserts the emotion engine's
normalization drops stopwords and tokens of length ≤ 2.  It does not: the
emotion `preprocess_text` has no stopword/length step at all (that step
exists only in the sentiment pipeline), so the input `"ah"` normalizes to
the single token `"ah"` of length 2. -/
theorem spec_C10_counterexample :
    preprocessTextEmotion (some "ah") = "ah" ∧
      splitWs (preprocessTextEmotion (some "ah")).data = ["ah".data] ∧
      ¬ 2 < "ah".data.length :=
  ⟨by decide, by decide, by decide⟩

/-- **C10, amended.**  The sentiment engine's normalization output contains
no stopword token and no token of length ≤ 2: after splitting on
whitespace, every surviving token of `SentimentProcessor.preprocess_text`
output is longer than 2 characters and outside the `stopwords_id` set.
(The emotion engine's normalization performs no such filtering; see the
counterexample.) -/
theorem spec_C10_sentiment_tokens_filtered (x : Option String)
    (w : List Char) (hw : w ∈ splitWs (preprocessTextSentiment x).data) :
    2 < w.length ∧ w ∉ stopwordsIdChars := by
  match x with
  | none => cases hw
  | some s =>
    by_cases hs : s = ""
    · subst hs
      cases hw
    · obtain ⟨sl⟩ := s
      rw [preprocessTextSentiment_mk hs] at hw
      obtain ⟨ts, hts, htok⟩ := sentimentPipeline_normal sl
      rw [data_mk, hts] at hw
      unfold splitWs at hw
      rw [splitWs_join (normalForm_token_facts htok) _ le_rfl] at hw
      obtain ⟨-, -, hlen, hsw, -⟩ := htok w hw
      exact ⟨hlen, hsw⟩

/-- Witness for the amended C10 theorem at a concrete input: the input
`"bagus di"` normalizes to the single token `"bagus"`, which is longer
than 2 and not a stopword. -/
theorem spec_C10_witness :
    "bagus".data ∈ splitWs (preprocessTextSentiment (some "bagus di")).data ∧
      2 < "bagus".data.length ∧ "bagus".data ∉ stopwordsIdChars :=
  ⟨by decide,
    (spec_C10_sentiment_tokens_filtered (some "bagus di") "bagus".data (by decide)).1,
    (spec_C10_sentiment_tokens_filtered (some "bagus di") "bagus".data (by decide)).2⟩

/-- **C2.**  The lexicon-fallback sentiment classifier
(`SentimentProcessor._fallback_sentiment`) returns `negative` when
strictly more negative than positive trigger phrases occur in the text,
`positive` when strictly more positive ones occur, `neutral` on every tie
(including 0-0); in particular one positive trigger and no negative
trigger classifies as `positive`. -/
theorem spec_C2_fallback_sentiment (t : String) :
    (negCount t > posCount t → fallbackSentiment t = "negative") ∧
      (posCount t > negCount t → fallbackSentiment t = "positive") ∧
      (posCount t = negCount t → fallbackSentiment t = "neutral") ∧
      (posCount t = 1 → negCount t = 0 → fallbackSentiment t = "positive") := by
  have e : fallbackSentiment t =
      if negCount t > posCount t then "negative"
      else if posCount t > negCount t then "positive" else "neutral" := rfl
  refine ⟨fun h => ?_, fun h => ?_, fun h => ?_, fun h1 h2 => ?_⟩
  · rw [e, if_pos h]
  · rw [e, if_neg (by omega), if_pos h]
  · rw [e, if_neg (by omega), if_neg (by omega)]
  · rw [e, if_neg (by omega), if_pos (by omega)]

/-- Witness for C2 at a concrete input: `"bagus"` contains exactly one
positive trigger and no negative trigger and classifies as positive. -/
theorem spec_C2_witness :
    posCount "bagus" = 1 ∧ negCount "bagus" = 0 ∧
      fallbackSentiment "bagus" = "positive" :=
  ⟨by decide, by decide,
    (spec_C2_fallback_sentiment "bagus").2.2.2 (by decide) (by decide)⟩

/-- **C3.**  In both generated reports, the per-label distribution counts
sum exactly to `total_analyzed` (the number of labelled rows), and every
label's percentage equals `round(count/total*100, 2)`. -/
theorem spec_C3_distribution_sums (labelsS labelsE : List String)
    (_hS : labelsS ≠ []) (_hE : labelsE ≠ []) :
    (((sentimentDistribution labelsS).map fun p => p.2.count).sum =
        labelsS.length ∧
      ∀ p ∈ sentimentDistribution labelsS,
        p.2.percentage = pyRound2 ((p.2.count : ℚ) / labelsS.length * 100)) ∧
    (((emotionDistribution labelsE).map fun p => p.2.count).sum =
        labelsE.length ∧
      ∀ p ∈ emotionDistribution labelsE,
        p.2.percentage = pyRound2 ((p.2.count : ℚ) / labelsE.length * 100)) := by
  refine ⟨⟨?_, ?_⟩, ?_, ?_⟩
  · rw [sentimentDistribution, List.map_map]
    exact List.sum_map_count_dedup_eq_length labelsS
  · intro p hp
    obtain ⟨l, -, rfl⟩ := List.mem_map.mp hp
    rfl
  · rw [emotionDistribution, List.map_map]
    exact List.sum_map_count_dedup_eq_length labelsE
  · intro p hp
    obtain ⟨l, -, rfl⟩ := List.mem_map.mp hp
    rfl

/-- Witness for C3 on a concrete 3-row corpus. -/
theorem spec_C3_witness :
    ((sentimentDistribution ["positive", "positive", "negative"]).map
      fun p => p.2.count).sum =
      (["positive", "positive", "negative"] : List String).length :=
  (spec_C3_distribution_sums ["positive", "positive", "negative"] ["joy"]
    (by decide) (by decide)).1.1

-- ## Evaluation helpers for concrete rational arithmetic

theorem floor_eval (q : ℚ) (z : ℤ) (h1 : (z : ℚ) ≤ q) (h2 : q < z + 1) :
    ⌊q⌋ = z :=
  Int.floor_eq_iff.mpr ⟨h1, h2⟩

theorem pyRoundInt_eval (q : ℚ) (z w : ℤ) (h1 : (z : ℚ) ≤ q) (h2 : q < z + 1)
    (hne : q - (z : ℚ) ≠ 1 / 2) (h3 : (w : ℚ) ≤ q + 1 / 2)
    (h4 : q + 1 / 2 < w + 1) : pyRoundInt q = w := by
  rw [pyRoundInt, floor_eval q z h1 h2, if_neg hne]
  exact floor_eval _ w h3 h4

theorem pyRound1_eval (q r : ℚ) (z w : ℤ) (h1 : (z : ℚ) ≤ q * 10)
    (h2 : q * 10 < z + 1) (hne : q * 10 - (z : ℚ) ≠ 1 / 2)
    (h3 : (w : ℚ) ≤ q * 10 + 1 / 2) (h4 : q * 10 + 1 / 2 < w + 1)
    (hr : (w : ℚ) / 10 = r) : pyRound1 q = r := by
  rw [pyRound1, pyRoundInt_eval (q * 10) z w h1 h2 hne h3 h4, hr]

theorem pyInt_eval (q : ℚ) (z : ℤ) (h0 : 0 ≤ q) (h1 : (z : ℚ) ≤ q)
    (h2 : q < z + 1) : pyInt q = z := by
  rw [pyInt, if_pos h0]
  exact floor_eval q z h1 h2

theorem ratMean_eq (l : List ℕ) : ratMean l = (l.sum : ℚ) / l.length := by
  rw [ratMean]
  congr 1
  induction l with
  | nil => exact Nat.cast_zero.symm
  | cons a s ih =>
    rw [List.map_cons, List.sum_cons, List.sum_cons, Nat.cast_add, ih]

/-- **C4, counterexample.**  The claim states the sentiment sub-score equals
`clamp(positive% − negative% + 50, 0, 100)` and that an overall score ≥ 80
rates `Excellent`.  The code rounds every sub-score to 1 decimal
(`round(sentiment_score, 1)`), and applies the rating tiers to the weighted
sum before its own rounding.  At positive% = 33.33 the clamp value is 83.33
but the reported sub-score is 83.3; with joy% = 30.9 and an average
engagement of 150 per post the weighted sum is 79.97, reported as overall
score 80.0 yet rated `Good`, not `Excellent`. -/
theorem spec_C4_counterexample :
    (calculatePerformanceScore (some [("positive", ⟨some ((3333 : ℚ) / 100)⟩)])
        (some [("joy", ⟨some ((309 : ℚ) / 10)⟩)])
        (some ⟨none, some 150, some 1⟩)).sentiment_score ≠
      min 100 (max 0 ((3333 : ℚ) / 100 - 0 + 50)) ∧
    (calculatePerformanceScore (some [("positive", ⟨some ((3333 : ℚ) / 100)⟩)])
        (some [("joy", ⟨some ((309 : ℚ) / 10)⟩)])
        (some ⟨none, some 150, some 1⟩)).overall_score = 80 ∧
    (calculatePerformanceScore (some [("positive", ⟨some ((3333 : ℚ) / 100)⟩)])
        (some [("joy", ⟨some ((309 : ℚ) / 10)⟩)])
        (some ⟨none, some 150, some 1⟩)).rating = "Good" := by
  have hpos : pctGet [("positive", ⟨some ((3333 : ℚ) / 100)⟩)] "positive" =
      3333 / 100 := rfl
  have hneg : pctGet [("positive", ⟨some ((3333 : ℚ) / 100)⟩)] "negative" =
      0 := rfl
  have hjoy : pctGet [("joy", ⟨some ((309 : ℚ) / 10)⟩)] "joy" = 309 / 10 := rfl
  have hang : pctGet [("joy", ⟨some ((309 : ℚ) / 10)⟩)] "anger" = 0 := rfl
  have hsad : pctGet [("joy", ⟨some ((309 : ℚ) / 10)⟩)] "sadness" = 0 := rfl
  have hdis : pctGet [("joy", ⟨some ((309 : ℚ) / 10)⟩)] "disgust" = 0 := rfl
  have hclamp : min (100 : ℚ) (max 0 (3333 / 100 - 0 + 50)) = 8333 / 100 := by
    rw [max_def, min_def]; norm_num
  have hclampE : min (100 : ℚ) (max 0 (309 / 10 - (0 + 0 + 0) + 50)) =
      809 / 10 := by
    rw [max_def, min_def]; norm_num
  have hs : pyRound1 ((8333 : ℚ) / 100) = 833 / 10 :=
    pyRound1_eval _ _ 833 833 (by norm_num) (by norm_num) (by norm_num)
      (by norm_num) (by norm_num) (by norm_num)
  have he : pyRound1 ((809 : ℚ) / 10) = 809 / 10 :=
    pyRound1_eval _ _ 809 809 (by norm_num) (by norm_num) (by norm_num)
      (by norm_num) (by norm_num) (by norm_num)
  have h75 : pyRound1 (75 : ℚ) = 75 :=
    pyRound1_eval _ _ 750 750 (by norm_num) (by norm_num) (by norm_num)
      (by norm_num) (by norm_num) (by norm_num)
  refine ⟨?_, ?_, ?_⟩
  · unfold calculatePerformanceScore
    dsimp only [Option.getD]
    rw [hpos, hneg, hclamp, hs]
    norm_num
  · unfold calculatePerformanceScore
    dsimp only [Option.getD]
    rw [hpos, hneg, hclamp, hs, hjoy, hang, hsad, hdis, hclampE, he,
      if_pos (show (0 : ℚ) < 1 by norm_num)]
    rw [show (150 : ℚ) / 1 = 150 by norm_num]
    rw [if_neg (show ¬ (200 : ℚ) ≤ 150 by norm_num),
      if_pos (show (100 : ℚ) ≤ 150 by norm_num), h75]
    rw [show (833 : ℚ) / 10 * (35 / 100) + 809 / 10 * (35 / 100) +
      75 * (30 / 100) = 7997 / 100 by norm_num]
    exact pyRound1_eval _ _ 799 800 (by norm_num) (by norm_num) (by norm_num)
      (by norm_num) (by norm_num) (by norm_num)
  · unfold calculatePerformanceScore
    dsimp only [Option.getD]
    rw [hpos, hneg, hclamp, hs, hjoy, hang, hsad, hdis, hclampE, he,
      if_pos (show (0 : ℚ) < 1 by norm_num)]
    rw [show (150 : ℚ) / 1 = 150 by norm_num]
    rw [if_neg (show ¬ (200 : ℚ) ≤ 150 by norm_num),
      if_pos (show (100 : ℚ) ≤ 150 by norm_num), h75]
    rw [show (833 : ℚ) / 10 * (35 / 100) + 809 / 10 * (35 / 100) +
      75 * (30 / 100) = 7997 / 100 by norm_num]
    rw [if_neg (show ¬ (80 : ℚ) ≤ 7997 / 100 by norm_num),
      if_pos (show (60 : ℚ) ≤ 7997 / 100 by norm_num)]

/-- **C4, amended.**  The performance score computes: sentiment sub-score =
`round1(clamp(positive% − negative% + 50, 0, 100))`; emotion sub-score =
`round1(clamp(joy% − (anger% + sadness% + disgust%) + 50, 0, 100))`;
engagement sub-score = `round1` of the piecewise benchmark (≥ 200 → 100,
≥ 100 → 75, ≥ 50 → 50, else `avg/50·50`), so average engagement exactly 200
gives exactly 100 and exactly 50 gives exactly 50; the overall score is the
0.35/0.35/0.30-weighted sum of the (rounded) sub-scores, rounded to 1
decimal; and the rating tiers (≥ 80 Excellent, ≥ 60 Good, ≥ 40 Fair, else
Poor) are applied to that weighted sum before its final rounding. -/
theorem spec_C4_performance_score (sd ed : List (String × PctEntry))
    (gd : EngagementData) (avg s1 e1 g1 : ℚ) (r : PerfScores)
    (havg : avg = if 0 < gd.total_posts.getD 1 then
      gd.total_engagement.getD 0 / gd.total_posts.getD 1 else 0)
    (hs1 : s1 = pyRound1 (min 100 (max 0
      (pctGet sd "positive" - pctGet sd "negative" + 50))))
    (he1 : e1 = pyRound1 (min 100 (max 0 (pctGet ed "joy" -
      (pctGet ed "anger" + pctGet ed "sadness" + pctGet ed "disgust") + 50))))
    (hg1 : g1 = pyRound1 (if 200 ≤ avg then 100 else if 100 ≤ avg then 75
      else if 50 ≤ avg then 50 else avg / 50 * 50))
    (hr : r = calculatePerformanceScore (some sd) (some ed) (some gd)) :
    r.sentiment_score = s1 ∧ r.emotion_score = e1 ∧ r.engagement_score = g1 ∧
      (avg = 200 → r.engagement_score = 100) ∧
      (avg = 50 → r.engagement_score = 50) ∧
      r.overall_score =
        pyRound1 (s1 * (35 / 100) + e1 * (35 / 100) + g1 * (30 / 100)) ∧
      (80 ≤ s1 * (35 / 100) + e1 * (35 / 100) + g1 * (30 / 100) →
        r.rating = "Excellent") ∧
      (¬ 80 ≤ s1 * (35 / 100) + e1 * (35 / 100) + g1 * (30 / 100) →
        60 ≤ s1 * (35 / 100) + e1 * (35 / 100) + g1 * (30 / 100) →
        r.rating = "Good") ∧
      (¬ 60 ≤ s1 * (35 / 100) + e1 * (35 / 100) + g1 * (30 / 100) →
        40 ≤ s1 * (35 / 100) + e1 * (35 / 100) + g1 * (30 / 100) →
        r.rating = "Fair") ∧
      (¬ 40 ≤ s1 * (35 / 100) + e1 * (35 / 100) + g1 * (30 / 100) →
        r.rating = "Poor") := by
  subst havg hs1 he1 hg1 hr
  unfold calculatePerformanceScore
  dsimp only
  refine ⟨rfl, rfl, rfl, fun h => ?_, fun h => ?_, rfl,
    fun h => ?_, fun h1 h2 => ?_, fun h1 h2 => ?_, fun h1 => ?_⟩
  · rw [h, if_pos (le_refl (200 : ℚ))]
    exact pyRound1_eval _ _ 1000 1000 (by norm_num) (by norm_num) (by norm_num)
      (by norm_num) (by norm_num) (by norm_num)
  · rw [h, if_neg (show ¬ (200 : ℚ) ≤ 50 by norm_num),
      if_neg (show ¬ (100 : ℚ) ≤ 50 by norm_num), if_pos (le_refl (50 : ℚ))]
    exact pyRound1_eval _ _ 500 500 (by norm_num) (by norm_num) (by norm_num)
      (by norm_num) (by norm_num) (by norm_num)
  · rw [if_pos h]
  · rw [if_neg h1, if_pos h2]
  · rw [if_neg (fun hc => h1 (le_trans (by norm_num) hc)), if_neg h1,
      if_pos h2]
  · rw [if_neg (fun hc => h1 (le_trans (by norm_num) hc)),
      if_neg (fun hc => h1 (le_trans (by norm_num) hc)), if_neg h1]

/-- Witness for the amended C4 theorem: a 60/40 sentiment split, all-joy
emotions and an average engagement of exactly 200 per post give engagement
sub-score exactly 100 and rating Excellent (weighted sum 89.5). -/
theorem spec_C4_witness :
    (calculatePerformanceScore
        (some [("positive", ⟨some 60⟩), ("negative", ⟨some 40⟩)])
        (some [("joy", ⟨some 100⟩)])
        (some ⟨none, some 200, some 1⟩)).engagement_score = 100 ∧
    (calculatePerformanceScore
        (some [("positive", ⟨some 60⟩), ("negative", ⟨some 40⟩)])
        (some [("joy", ⟨some 100⟩)])
        (some ⟨none, some 200, some 1⟩)).rating = "Excellent" := by
  have h := spec_C4_performance_score
    [("positive", ⟨some 60⟩), ("negative", ⟨some 40⟩)]
    [("joy", ⟨some 100⟩)] ⟨none, some 200, some 1⟩ 200 70 100 100 _
    (by norm_num [Option.getD])
    (by rw [show pctGet [("positive", ⟨some (60 : ℚ)⟩),
          ("negative", ⟨some 40⟩)] "positive" = 60 from rfl,
        show pctGet [("positive", ⟨some (60 : ℚ)⟩),
          ("negative", ⟨some 40⟩)] "negative" = 40 from rfl,
        show min (100 : ℚ) (max 0 (60 - 40 + 50)) = 70 by
          rw [max_def, min_def]; norm_num,
        pyRound1_eval 70 70 700 700 (by norm_num) (by norm_num) (by norm_num)
          (by norm_num) (by norm_num) (by norm_num)])
    (by rw [show pctGet [("joy", ⟨some (100 : ℚ)⟩)] "joy" = 100 from rfl,
        show pctGet [("joy", ⟨some (100 : ℚ)⟩)] "anger" = 0 from rfl,
        show pctGet [("joy", ⟨some (100 : ℚ)⟩)] "sadness" = 0 from rfl,
        show pctGet [("joy", ⟨some (100 : ℚ)⟩)] "disgust" = 0 from rfl,
        show min (100 : ℚ) (max 0 (100 - (0 + 0 + 0) + 50)) = 100 by
          rw [max_def, min_def]; norm_num,
        pyRound1_eval 100 100 1000 1000 (by norm_num) (by norm_num)
          (by norm_num) (by norm_num) (by norm_num) (by norm_num)])
    (by rw [if_pos (le_refl (200 : ℚ)),
        pyRound1_eval 100 100 1000 1000 (by norm_num) (by norm_num)
          (by norm_num) (by norm_num) (by norm_num) (by norm_num)])
    rfl
  exact ⟨h.2.2.2.1 rfl, h.2.2.2.2.2.2.1 (by norm_num)⟩

/-- **C6, counterexample.**  The claim says an input covering only 1
distinct observed hour yields the insufficient-data result without
clustering.  The guard actually counts parseable timestamps with
repetitions (`len(hours) < 2`): two replies in the same hour (hour 5) pass
the guard and the clustering stage IS reached.  The run then aborts in
`PCA(n_components=2).fit_transform` on the single feature row and the
`except` handler returns the empty dict — so the result is the empty
payload, in either case not the claimed insufficient-data payload.  (The
result is the same for every labelling function; `fun X => map (-1)` is the
labelling DBSCAN produces on a lone point.) -/
theorem spec_C6_counterexample :
    getPeakActivityHours (fun X => X.map fun _ => (-1 : ℤ)) [some 5, some 5] =
      PeakOutcome.emptyResult ∧
    getPeakActivityHours (fun X => X.map fun _ => (-1 : ℤ)) [some 5, some 5] ≠
      PeakOutcome.insufficientData :=
  ⟨by decide, by decide⟩

/-- **C6, amended.**  For every non-empty replies input with fewer than 2
parseable timestamps (repetitions included), `get_peak_activity_hours`
returns the explicit insufficient-data payload, and the clustering
algorithm is not consulted: the result is the same for every possible
labelling function. -/
theorem spec_C6_insufficient_guard (db : List (ℕ × ℕ) → List ℤ)
    (rows : List (Option ℕ)) (hne : rows ≠ [])
    (hlen : (rows.filterMap id).length < 2) :
    getPeakActivityHours db rows = PeakOutcome.insufficientData := by
  cases rows with
  | nil => exact absurd rfl hne
  | cons a t =>
    unfold getPeakActivityHours
    rw [if_neg (by simp)]
    dsimp only
    rw [if_pos hlen]

/-- Witness for the amended C6 theorem: one unparseable and one parseable
timestamp reach the insufficient-data payload under any labelling. -/
theorem spec_C6_witness :
    getPeakActivityHours (fun X => X.map fun _ => (-1 : ℤ)) [none, some 4] =
      PeakOutcome.insufficientData :=
  spec_C6_insufficient_guard _ _ (by decide) (by decide)

/-- **C7 (code bug).**  The reporting stage is supposed to attach each
cluster's mean activity count, but `avg_count = int(np.mean(cluster_hours))`
averages column 0 (the hours) instead of column 1 (the per-hour reply
counts): `cluster_hours = non_outlier_hours[cluster_mask][:, 0]`.  On the
feature rows for 24 hours with 3 replies each, all in one DBSCAN cluster
(label 0), the code reports `avg_activity = 11` (= int(mean 0..23) =
int(11.5)) although the mean per-hour reply count is 3; the range string
and min/max hours are as specified. -/
theorem spec_C7_avg_activity_bug :
    ((buildPeakRanges ((List.range 24).map fun h => (h, 3))
        (List.replicate 24 (0 : ℤ))).map fun r =>
          (r.cluster_id, r.start_hour, r.end_hour, r.range)) =
      [(0, 0, 23, "00:00 - 23:00")] ∧
    ((buildPeakRanges ((List.range 24).map fun h => (h, 3))
        (List.replicate 24 (0 : ℤ))).map fun r => r.avg_activity) =
      [pyInt (ratMean (List.range 24))] ∧
    pyInt (ratMean (List.range 24)) = 11 ∧
    pyInt (ratMean (((List.range 24).map fun h => (h, 3)).map
      fun p => p.2)) = 3 ∧
    (11 : ℤ) ≠ 3 := by
  refine ⟨by decide, rfl, ?_, ?_, by decide⟩
  · rw [ratMean_eq, show (List.range 24).sum = 276 from by decide,
      show (List.range 24).length = 24 from by decide]
    exact pyInt_eval _ 11 (by norm_num) (by norm_num) (by norm_num)
  · rw [ratMean_eq,
      show ((((List.range 24).map fun h => (h, 3)).map fun p => p.2)).sum =
        72 from by decide,
      show ((((List.range 24).map fun h => (h, 3)).map fun p => p.2)).length =
        24 from by decide]
    exact pyInt_eval _ 3 (by norm_num) (by norm_num) (by norm_num)

-- ## Stable insertion sort lemmas (for the priority sort of C5)

theorem mem_insertStable (le : α → α → Bool) (x a : α) (l : List α) :
    a ∈ insertStable le x l ↔ a = x ∨ a ∈ l := by
  induction l with
  | nil => simp [insertStable]
  | cons y ys ih =>
    rw [insertStable]
    by_cases hc : le y x = true
    · rw [if_pos hc]
      simp only [List.mem_cons, ih]
      tauto
    · rw [if_neg hc]
      simp [List.mem_cons]

theorem insertStable_pairwise (f : α → ℕ) (x : α) (l : List α)
    (h : l.Pairwise fun a b => f a ≤ f b) :
    (insertStable (fun a b => decide (f a ≤ f b)) x l).Pairwise
      fun a b => f a ≤ f b := by
  induction l with
  | nil => simp [insertStable]
  | cons y ys ih =>
    rcases List.pairwise_cons.mp h with ⟨hy, hys⟩
    rw [insertStable]
    by_cases hle : f y ≤ f x
    · rw [if_pos (decide_eq_true hle)]
      refine List.pairwise_cons.mpr ⟨?_, ih hys⟩
      intro b hb
      rcases (mem_insertStable _ x b ys).mp hb with rfl | hb
      · exact hle
      · exact hy b hb
    · rw [if_neg (fun hc => hle (of_decide_eq_true hc))]
      refine List.pairwise_cons.mpr ⟨?_, h⟩
      intro b hb
      rcases List.mem_cons.mp hb with rfl | hb
      · exact le_of_not_le hle
      · exact le_trans (le_of_not_le hle) (hy b hb)

theorem insertStable_filter (f : α → ℕ) (w : ℕ) (x : α) (l : List α)
    (h : l.Pairwise fun a b => f a ≤ f b) :
    (insertStable (fun a b => decide (f a ≤ f b)) x l).filter
      (fun a => decide (f a = w)) =
    l.filter (fun a => decide (f a = w)) ++
      if f x = w then [x] else [] := by
  induction l with
  | nil =>
    by_cases hfx : f x = w
    · simp [insertStable, hfx]
    · simp [insertStable, hfx]
  | cons y ys ih =>
    rcases List.pairwise_cons.mp h with ⟨hy, hys⟩
    rw [insertStable]
    by_cases hle : f y ≤ f x
    · rw [if_pos (decide_eq_true hle)]
      rw [List.filter_cons, List.filter_cons]
      by_cases hpy : f y = w
      · rw [if_pos (decide_eq_true hpy), if_pos (decide_eq_true hpy),
          List.cons_append, ih hys]
      · rw [if_neg (fun hc => hpy (of_decide_eq_true hc)),
          if_neg (fun hc => hpy (of_decide_eq_true hc)), ih hys]
    · rw [if_neg (fun hc => hle (of_decide_eq_true hc))]
      have hxy : f x < f y := not_le.mp hle
      by_cases hfx : f x = w
      · have hnil : (y :: ys).filter (fun a => decide (f a = w)) = [] := by
          refine List.filter_eq_nil_iff.mpr ?_
          intro b hb
          simp only [decide_eq_true_eq]
          rcases List.mem_cons.mp hb with rfl | hb
          · exact ne_of_gt (hfx ▸ hxy)
          · exact ne_of_gt (lt_of_lt_of_le (hfx ▸ hxy) (hy b hb))
        rw [List.filter_cons, if_pos (decide_eq_true hfx), hnil, if_pos hfx]
        simp
      · rw [List.filter_cons, if_neg (fun hc => hfx (of_decide_eq_true hc)),
          if_neg hfx, List.append_nil]

theorem stableSort_go_pairwise (f : α → ℕ) :
    ∀ (l acc : List α), (acc.Pairwise fun a b => f a ≤ f b) →
      ((l.foldl (fun acc x =>
          insertStable (fun a b => decide (f a ≤ f b)) x acc) acc).Pairwise
        fun a b => f a ≤ f b)
  | [], _, h => h
  | x :: t, acc, h =>
    stableSort_go_pairwise f t _ (insertStable_pairwise f x acc h)

theorem stableSort_pairwise (f : α → ℕ) (l : List α) :
    (stableSort (fun a b => decide (f a ≤ f b)) l).Pairwise
      fun a b => f a ≤ f b :=
  stableSort_go_pairwise f l [] List.Pairwise.nil

theorem stableSort_go_filter (f : α → ℕ) (w : ℕ) :
    ∀ (l acc : List α), (acc.Pairwise fun a b => f a ≤ f b) →
      (l.foldl (fun acc x =>
          insertStable (fun a b => decide (f a ≤ f b)) x acc) acc).filter
        (fun a => decide (f a = w)) =
      acc.filter (fun a => decide (f a = w)) ++
        l.filter (fun a => decide (f a = w))
  | [], _, _ => by simp
  | x :: t, acc, h => by
    have ih := stableSort_go_filter f w t
      (insertStable (fun a b => decide (f a ≤ f b)) x acc)
      (insertStable_pairwise f x acc h)
    rw [List.foldl_cons, ih, insertStable_filter f w x acc h, List.filter_cons]
    by_cases hfx : f x = w
    · rw [if_pos hfx, if_pos (decide_eq_true hfx)]
      simp
    · rw [if_neg hfx, if_neg (fun hc => hfx (of_decide_eq_true hc))]
      simp

theorem stableSort_filter (f : α → ℕ) (w : ℕ) (l : List α) :
    (stableSort (fun a b => decide (f a ≤ f b)) l).filter
      (fun a => decide (f a = w)) =
    l.filter (fun a => decide (f a = w)) := by
  have h := stableSort_go_filter f w l [] List.Pairwise.nil
  simpa using h

/-- **C5.**  For every combination of input reports, the recommendation
list returned by `generate_recommendations` is sorted by ascending priority
weight (critical = 1 before high = 2 before medium = 3 before low = 4); for
every weight the sublist of recommendations of that weight equals, in
order, the corresponding sublist of the pre-sort generation order (the sort
is stable); and in particular every `critical` recommendation in the output
precedes every `low` one, regardless of generation order. -/
theorem spec_C5_priority_sort (sd ed : Option (List (String × PctEntry)))
    (td : Option (List TopicEngagement)) (gd : Option EngagementData)
    (pd : Option (List ℕ)) :
    (generateRecommendations sd ed td gd pd).recommendations.Pairwise
      (fun a b => priorityWeight a.priority ≤ priorityWeight b.priority) ∧
    (∀ w : ℕ, (generateRecommendations sd ed td gd pd).recommendations.filter
        (fun r => decide (priorityWeight r.priority = w)) =
      (generatedRecs sd ed td gd pd).filter
        (fun r => decide (priorityWeight r.priority = w))) ∧
    ∀ (i j :
        Fin (generateRecommendations sd ed td gd pd).recommendations.length),
      ((generateRecommendations sd ed td gd pd).recommendations.get i).priority
          = "critical" →
      ((generateRecommendations sd ed td gd pd).recommendations.get j).priority
          = "low" →
      (i : ℕ) < (j : ℕ) := by
  have hrec : (generateRecommendations sd ed td gd pd).recommendations =
      stableSort
        (fun a b => decide (priorityWeight a.priority ≤
          priorityWeight b.priority))
        (generatedRecs sd ed td gd pd) := rfl
  have hp : (generateRecommendations sd ed td gd pd).recommendations.Pairwise
      (fun a b => priorityWeight a.priority ≤ priorityWeight b.priority) := by
    rw [hrec]
    exact stableSort_pairwise (fun r : Recommendation => priorityWeight r.priority) _
  refine ⟨hp, fun w => ?_, fun i j hc hl => ?_⟩
  · rw [hrec]
    exact stableSort_filter (fun r : Recommendation => priorityWeight r.priority) w _
  · rcases Nat.lt_trichotomy (i : ℕ) (j : ℕ) with h | h | h
    · exact h
    · exfalso
      have hij : i = j := Fin.ext h
      rw [hij, hl] at hc
      exact absurd hc (by decide)
    · exfalso
      have hw := List.pairwise_iff_get.mp hp j i h
      rw [hc, hl] at hw
      exact absurd hw (by decide)

/-- Witness for C5: a 50% negative sentiment report (generating a
`critical` and a `high` recommendation) and three topics (generating a
`medium` and then a `low` one) yield the output order critical, high,
medium, low; the theorem instantiated at the first and last positions
gives 0 < 3. -/
theorem spec_C5_witness :
    ((generateRecommendations (some [("negative", ⟨some 50⟩)]) none
        (some [⟨"a", 3⟩, ⟨"b", 2⟩, ⟨"c", 1⟩]) none none).recommendations.map
      fun r => r.priority) = ["critical", "high", "medium", "low"] ∧
    ((0 : ℕ) < (3 : ℕ)) := by
  refine ⟨by decide, ?_⟩
  exact (spec_C5_priority_sort (some [("negative", ⟨some 50⟩)]) none
    (some [⟨"a", 3⟩, ⟨"b", 2⟩, ⟨"c", 1⟩]) none none).2.2
    ⟨0, by decide⟩ ⟨3, by decide⟩ (by decide) (by decide)

theorem max6_eq (a0 a1 a2 a3 a4 a5 m : ℕ) (h0 : a0 ≤ m) (h1 : a1 ≤ m)
    (h2 : a2 ≤ m) (h3 : a3 ≤ m) (h4 : a4 ≤ m) (h5 : a5 ≤ m)
    (hmem : m = a0 ∨ m = a1 ∨ m = a2 ∨ m = a3 ∨ m = a4 ∨ m = a5) :
    Nat.max (Nat.max (Nat.max (Nat.max (Nat.max (Nat.max 0 a0) a1) a2) a3)
      a4) a5 = m := by
  simp only [Nat.max_def]
  split_ifs <;> omega

/-- **C1.**  `predict_emotion` returns `neutral` whenever all six category
scores are 0; and whenever the input passes the empty/whitespace guard and
category `i` has positive score, strictly larger than every earlier
category's and at least every category's, the returned label is the name of
category `i` (in the enumeration order joy, anger, sadness, fear, surprise,
disgust).  Instantiated at a first maximum this says: the strictly highest
category wins, and ties among nonzero categories go to the earliest
category in enumeration order. -/
theorem spec_C1_emotion_prediction (text : String) :
    ((∀ j, j < 6 → emotionCategoryScore text j = 0) →
      predictEmotion text = "neutral") ∧
    ∀ i, i < 6 → text ≠ "" → (pyStrip text.data).length ≠ 0 →
      0 < emotionCategoryScore text i →
      (∀ j, j < i →
        emotionCategoryScore text j < emotionCategoryScore text i) →
      (∀ j, j < 6 →
        emotionCategoryScore text j ≤ emotionCategoryScore text i) →
      predictEmotion text = emotionCategoryName i := by
  constructor
  · intro hz
    have z0 : emotionScore (List.map Char.toLower text.data) joyLexicon = 0 :=
      hz 0 (by omega)
    have z1 : emotionScore (List.map Char.toLower text.data) angerLexicon =
        0 := hz 1 (by omega)
    have z2 : emotionScore (List.map Char.toLower text.data) sadnessLexicon =
        0 := hz 2 (by omega)
    have z3 : emotionScore (List.map Char.toLower text.data) fearLexicon =
        0 := hz 3 (by omega)
    have z4 : emotionScore (List.map Char.toLower text.data) surpriseLexicon =
        0 := hz 4 (by omega)
    have z5 : emotionScore (List.map Char.toLower text.data) disgustLexicon =
        0 := hz 5 (by omega)
    by_cases hg : (decide (text = "") ||
        decide ((pyStrip text.data).length = 0)) = true
    · unfold predictEmotion
      rw [if_pos hg]
    · unfold predictEmotion
      rw [if_neg hg]
      dsimp only
      have hM0 : ((emotionScoresList (List.map Char.toLower text.data)).map
          Prod.snd).foldl Nat.max 0 = 0 := by
        simp only [emotionScoresList, emotionLexicons, List.map_cons,
          List.map_nil, List.foldl_cons, List.foldl_nil]
        simp [z0, z1, z2, z3, z4, z5, Nat.max_self]
      rw [if_pos hM0]
  · intro i hi hemp hws hpos hfirst hmax
    have hguard : ¬ ((decide (text = "") ||
        decide ((pyStrip text.data).length = 0)) = true) := by
      simp [hemp, hws]
    unfold predictEmotion
    rw [if_neg hguard]
    dsimp only
    interval_cases i
    · have hp : 0 < emotionScore (List.map Char.toLower text.data)
          joyLexicon := hpos
      have hM : ((emotionScoresList (List.map Char.toLower text.data)).map
          Prod.snd).foldl Nat.max 0 =
          emotionScore (List.map Char.toLower text.data) joyLexicon := by
        simp only [emotionScoresList, emotionLexicons, List.map_cons,
          List.map_nil, List.foldl_cons, List.foldl_nil]
        exact max6_eq _ _ _ _ _ _ _ (hmax 0 (by omega)) (hmax 1 (by omega))
          (hmax 2 (by omega)) (hmax 3 (by omega)) (hmax 4 (by omega))
          (hmax 5 (by omega)) (Or.inl rfl)
      simp only [hM]
      rw [if_neg (Nat.pos_iff_ne_zero.mp hp)]
      have dp : decide
          (emotionScore (List.map Char.toLower text.data) joyLexicon =
           emotionScore (List.map Char.toLower text.data) joyLexicon) =
          true := decide_eq_true rfl
      simp only [emotionScoresList, emotionLexicons, List.map_cons,
        List.map_nil, List.find?, dp, decide_True]
      rfl
    · have hp : 0 < emotionScore (List.map Char.toLower text.data)
          angerLexicon := hpos
      have hM : ((emotionScoresList (List.map Char.toLower text.data)).map
          Prod.snd).foldl Nat.max 0 =
          emotionScore (List.map Char.toLower text.data) angerLexicon := by
        simp only [emotionScoresList, emotionLexicons, List.map_cons,
          List.map_nil, List.foldl_cons, List.foldl_nil]
        exact max6_eq _ _ _ _ _ _ _ (hmax 0 (by omega)) (hmax 1 (by omega))
          (hmax 2 (by omega)) (hmax 3 (by omega)) (hmax 4 (by omega))
          (hmax 5 (by omega)) (Or.inr (Or.inl rfl))
      simp only [hM]
      rw [if_neg (Nat.pos_iff_ne_zero.mp hp)]
      have d0 : decide
          (emotionScore (List.map Char.toLower text.data) joyLexicon =
           emotionScore (List.map Char.toLower text.data) angerLexicon) =
          false := decide_eq_false (Nat.ne_of_lt (hfirst 0 (by omega)))
      have dp : decide
          (emotionScore (List.map Char.toLower text.data) angerLexicon =
           emotionScore (List.map Char.toLower text.data) angerLexicon) =
          true := decide_eq_true rfl
      simp only [emotionScoresList, emotionLexicons, List.map_cons,
        List.map_nil, List.find?, d0, dp, decide_True]
      rfl
    · have hp : 0 < emotionScore (List.map Char.toLower text.data)
          sadnessLexicon := hpos
      have hM : ((emotionScoresList (List.map Char.toLower text.data)).map
          Prod.snd).foldl Nat.max 0 =
          emotionScore (List.map Char.toLower text.data) sadnessLexicon := by
        simp only [emotionScoresList, emotionLexicons, List.map_cons,
          List.map_nil, List.foldl_cons, List.foldl_nil]
        exact max6_eq _ _ _ _ _ _ _ (hmax 0 (by omega)) (hmax 1 (by omega))
          (hmax 2 (by omega)) (hmax 3 (by omega)) (hmax 4 (by omega))
          (hmax 5 (by omega)) (Or.inr (Or.inr (Or.inl rfl)))
      simp only [hM]
      rw [if_neg (Nat.pos_iff_ne_zero.mp hp)]
      have d0 : decide
          (emotionScore (List.map Char.toLower text.data) joyLexicon =
           emotionScore (List.map Char.toLower text.data) sadnessLexicon) =
          false := decide_eq_false (Nat.ne_of_lt (hfirst 0 (by omega)))
      have d1 : decide
          (emotionScore (List.map Char.toLower text.data) angerLexicon =
           emotionScore (List.map Char.toLower text.data) sadnessLexicon) =
          false := decide_eq_false (Nat.ne_of_lt (hfirst 1 (by omega)))
      have dp : decide
          (emotionScore (List.map Char.toLower text.data) sadnessLexicon =
           emotionScore (List.map Char.toLower text.data) sadnessLexicon) =
          true := decide_eq_true rfl
      simp only [emotionScoresList, emotionLexicons, List.map_cons,
        List.map_nil, List.find?, d0, d1, dp, decide_True]
      rfl
    · have hp : 0 < emotionScore (List.map Char.toLower text.data)
          fearLexicon := hpos
      have hM : ((emotionScoresList (List.map Char.toLower text.data)).map
          Prod.snd).foldl Nat.max 0 =
          emotionScore (List.map Char.toLower text.data) fearLexicon := by
        simp only [emotionScoresList, emotionLexicons, List.map_cons,
          List.map_nil, List.foldl_cons, List.foldl_nil]
        exact max6_eq _ _ _ _ _ _ _ (hmax 0 (by omega)) (hmax 1 (by omega))
          (hmax 2 (by omega)) (hmax 3 (by omega)) (hmax 4 (by omega))
          (hmax 5 (by omega)) (Or.inr (Or.inr (Or.inr (Or.inl rfl))))
      simp only [hM]
      rw [if_neg (Nat.pos_iff_ne_zero.mp hp)]
      have d0 : decide
          (emotionScore (List.map Char.toLower text.data) joyLexicon =
           emotionScore (List.map Char.toLower text.data) fearLexicon) =
          false := decide_eq_false (Nat.ne_of_lt (hfirst 0 (by omega)))
      have d1 : decide
          (emotionScore (List.map Char.toLower text.data) angerLexicon =
           emotionScore (List.map Char.toLower text.data) fearLexicon) =
          false := decide_eq_false (Nat.ne_of_lt (hfirst 1 (by omega)))
      have d2 : decide
          (emotionScore (List.map Char.toLower text.data) sadnessLexicon =
           emotionScore (List.map Char.toLower text.data) fearLexicon) =
          false := decide_eq_false (Nat.ne_of_lt (hfirst 2 (by omega)))
      have dp : decide
          (emotionScore (List.map Char.toLower text.data) fearLexicon =
           emotionScore (List.map Char.toLower text.data) fearLexicon) =
          true := decide_eq_true rfl
      simp only [emotionScoresList, emotionLexicons, List.map_cons,
        List.map_nil, List.find?, d0, d1, d2, dp, decide_True]
      rfl
    · have hp : 0 < emotionScore (List.map Char.toLower text.data)
          surpriseLexicon := hpos
      have hM : ((emotionScoresList (List.map Char.toLower text.data)).map
          Prod.snd).foldl Nat.max 0 =
          emotionScore (List.map Char.toLower text.data) surpriseLexicon := by
        simp only [emotionScoresList, emotionLexicons, List.map_cons,
          List.map_nil, List.foldl_cons, List.foldl_nil]
        exact max6_eq _ _ _ _ _ _ _ (hmax 0 (by omega)) (hmax 1 (by omega))
          (hmax 2 (by omega)) (hmax 3 (by omega)) (hmax 4 (by omega))
          (hmax 5 (by omega)) (Or.inr (Or.inr (Or.inr (Or.inr (Or.inl rfl)))))
      simp only [hM]
      rw [if_neg (Nat.pos_iff_ne_zero.mp hp)]
      have d0 : decide
          (emotionScore (List.map Char.toLower text.data) joyLexicon =
           emotionScore (List.map Char.toLower text.data) surpriseLexicon) =
          false := decide_eq_false (Nat.ne_of_lt (hfirst 0 (by omega)))
      have d1 : decide
          (emotionScore (List.map Char.toLower text.data) angerLexicon =
           emotionScore (List.map Char.toLower text.data) surpriseLexicon) =
          false := decide_eq_false (Nat.ne_of_lt (hfirst 1 (by omega)))
      have d2 : decide
          (emotionScore (List.map Char.toLower text.data) sadnessLexicon =
           emotionScore (List.map Char.toLower text.data) surpriseLexicon) =
          false := decide_eq_false (Nat.ne_of_lt (hfirst 2 (by omega)))
      have d3 : decide
          (emotionScore (List.map Char.toLower text.data) fearLexicon =
           emotionScore (List.map Char.toLower text.data) surpriseLexicon) =
          false := decide_eq_false (Nat.ne_of_lt (hfirst 3 (by omega)))
      have dp : decide
          (emotionScore (List.map Char.toLower text.data) surpriseLexicon =
           emotionScore (List.map Char.toLower text.data) surpriseLexicon) =
          true := decide_eq_true rfl
      simp only [emotionScoresList, emotionLexicons, List.map_cons,
        List.map_nil, List.find?, d0, d1, d2, d3, dp, decide_True]
      rfl
    · have hp : 0 < emotionScore (List.map Char.toLower text.data)
          disgustLexicon := hpos
      have hM : ((emotionScoresList (List.map Char.toLower text.data)).map
          Prod.snd).foldl Nat.max 0 =
          emotionScore (List.map Char.toLower text.data) disgustLexicon := by
        simp only [emotionScoresList, emotionLexicons, List.map_cons,
          List.map_nil, List.foldl_cons, List.foldl_nil]
        exact max6_eq _ _ _ _ _ _ _ (hmax 0 (by omega)) (hmax 1 (by omega))
          (hmax 2 (by omega)) (hmax 3 (by omega)) (hmax 4 (by omega))
          (hmax 5 (by omega))
          (Or.inr (Or.inr (Or.inr (Or.inr (Or.inr rfl)))))
      simp only [hM]
      rw [if_neg (Nat.pos_iff_ne_zero.mp hp)]
      have d0 : decide
          (emotionScore (List.map Char.toLower text.data) joyLexicon =
           emotionScore (List.map Char.toLower text.data) disgustLexicon) =
          false := decide_eq_false (Nat.ne_of_lt (hfirst 0 (by omega)))
      have d1 : decide
          (emotionScore (List.map Char.toLower text.data) angerLexicon =
           emotionScore (List.map Char.toLower text.data) disgustLexicon) =
          false := decide_eq_false (Nat.ne_of_lt (hfirst 1 (by omega)))
      have d2 : decide
          (emotionScore (List.map Char.toLower text.data) sadnessLexicon =
           emotionScore (List.map Char.toLower text.data) disgustLexicon) =
          false := decide_eq_false (Nat.ne_of_lt (hfirst 2 (by omega)))
      have d3 : decide
          (emotionScore (List.map Char.toLower text.data) fearLexicon =
           emotionScore (List.map Char.toLower text.data) disgustLexicon) =
          false := decide_eq_false (Nat.ne_of_lt (hfirst 3 (by omega)))
      have d4 : decide
          (emotionScore (List.map Char.toLower text.data) surpriseLexicon =
           emotionScore (List.map Char.toLower text.data) disgustLexicon) =
          false := decide_eq_false (Nat.ne_of_lt (hfirst 4 (by omega)))
      have dp : decide
          (emotionScore (List.map Char.toLower text.data) disgustLexicon =
           emotionScore (List.map Char.toLower text.data) disgustLexicon) =
          true := decide_eq_true rfl
      simp only [emotionScoresList, emotionLexicons, List.map_cons,
        List.map_nil, List.find?, d0, d1, d2, d3, d4, dp, decide_True]
      rfl

set_option maxRecDepth 40000 in
set_option maxHeartbeats 1000000 in
/-- Witness for C1: on the text `"senang marah"` the joy and anger scores
are both 2 (a nonzero tie) and all others are 0, and the theorem yields the
earliest tied category, `joy`; on the trigger-free text `"zzz"` all scores
are 0 and the theorem yields `neutral`. -/
theorem spec_C1_witness :
    predictEmotion "senang marah" = "joy" ∧
    predictEmotion "zzz" = "neutral" := by
  constructor
  · exact (spec_C1_emotion_prediction "senang marah").2 0 (by decide)
      (by decide) (by decide) (by decide)
      (fun j hj => (Nat.not_lt_zero j hj).elim) (by decide)
  · exact (spec_C1_emotion_prediction "zzz").1 (by decide)
